import Mathlib

/-!
Verification of the citation tracking and reference management engine of the
cmc-regulatory-writer backend (`app/models/citation_tracker.py`,
`app/services/citation_tracker.py`, and the citation-processing part of
`app/services/generation_service.py`).

The Python code is shallowly embedded: Python `str` is modelled by `String`
(operations are implemented over `List Char`, matching Python's code-point
semantics for the ASCII fragment the code manipulates), `dict` by insertion-
ordered association lists, and pydantic models by structures whose validating
constructors return `Except`.  `datetime` values are modelled by their year,
the only component the code ever reads; `datetime.now()` is threaded in as an
explicit `Clock` value.
-/

/-! ### Python string primitives -/

/-- The characters stripped by Python's `str.strip()` / `str.rstrip()`
(ASCII whitespace; the code never manipulates non-ASCII whitespace). -/
def isPySpace (c : Char) : Bool :=
  c == ' ' || c == '\t' || c == '\n' || c == '\r' || c == '\x0b' || c == '\x0c'

/-- Python `str.strip()`. -/
def pyStrip (s : String) : String :=
  (((s.toList.dropWhile isPySpace).reverse.dropWhile isPySpace).reverse).asString

/-- Python `str.rstrip()`. -/
def pyRstrip (s : String) : String :=
  ((s.toList.reverse.dropWhile isPySpace).reverse).asString

/-- Helper for `pySplit`: splits a character list on the non-empty separator
`s0 :: srest`, left to right, non-overlapping, keeping empty pieces —
the semantics of Python's `str.split(sep)`.  Fuelled for structural
recursion; every step consumes at least one input character, so fuel
`length + 1` never runs out. -/
def splitOnSubAux (s0 : Char) (srest : List Char) :
    Nat → List Char → List Char → List (List Char)
  | 0, acc, l => [acc.reverse ++ l]
  | _ + 1, acc, [] => [acc.reverse]
  | fuel + 1, acc, c :: rest =>
    if c = s0 ∧ srest.isPrefixOf rest then
      acc.reverse :: splitOnSubAux s0 srest fuel [] (rest.drop srest.length)
    else
      splitOnSubAux s0 srest fuel (c :: acc) rest

/-- Python `s.split(sep)` for a non-empty literal separator (the code uses
`'-'` and `'\n\n'`).  For an empty separator the string is returned whole
(never exercised by the source). -/
def pySplit (s : String) (sep : String) : List String :=
  match sep.toList with
  | [] => [s]
  | s0 :: srest =>
    (splitOnSubAux s0 srest (s.toList.length + 1) [] s.toList).map List.asString

/-- Helper for `pyReplace`: replaces every non-overlapping occurrence of the
non-empty pattern `p :: ps`, scanning left to right — the semantics of
Python's `str.replace`.  Fuelled like `splitOnSubAux`. -/
def replaceAllAux (p : Char) (ps sub : List Char) : Nat → List Char → List Char
  | 0, l => l
  | _ + 1, [] => []
  | fuel + 1, c :: rest =>
    if c = p ∧ ps.isPrefixOf rest then
      sub ++ replaceAllAux p ps sub fuel (rest.drop ps.length)
    else
      c :: replaceAllAux p ps sub fuel rest

/-- Python `s.replace(pat, sub)` for a non-empty literal pattern (the code
replaces `'.pdf'` and `'.PDF'`). -/
def pyReplace (s pat sub : String) : String :=
  match pat.toList with
  | [] => s
  | p :: ps => (replaceAllAux p ps sub.toList (s.toList.length + 1) s.toList).asString

/-- One step of Python `str.title()`: a cased (here: alphabetic) character is
uppercased after a non-cased character and lowercased otherwise. -/
def pyTitleAux : Bool → List Char → List Char
  | _, [] => []
  | prevCased, c :: rest =>
    if c.isAlpha then
      (if prevCased then c.toLower else c.toUpper) :: pyTitleAux true rest
    else
      c :: pyTitleAux false rest

/-- Python `str.title()` (ASCII letters; the filenames the heuristic parses
are ASCII). -/
def pyTitle (s : String) : String := (pyTitleAux false s.toList).asString

/-- Python `str.lower()` (ASCII). -/
def pyLower (s : String) : String := (s.toList.map Char.toLower).asString

/-- Python `str.isdigit()` restricted to ASCII decimal digits: non-empty and
all digits. -/
def pyIsDigit (s : String) : Bool := !s.toList.isEmpty && s.toList.all Char.isDigit

/-- Numeric value of a decimal digit string (as read by Python `int(...)`). -/
def digitsToNat (s : String) : Nat :=
  s.toList.foldl (fun a c => a * 10 + (c.toNat - 48)) 0

/-- Decimal digit character. -/
def digitChar (n : Nat) : Char := Char.ofNat (48 + n)

/-- Decimal digits of a natural number, most significant first; fuelled for
structural recursion (one unit of fuel per digit, so `n + 1` always
suffices). -/
def natDigitsAux : Nat → Nat → List Char
  | 0, _ => []
  | fuel + 1, n =>
    if n < 10 then [digitChar n]
    else natDigitsAux fuel (n / 10) ++ [digitChar (n % 10)]

/-- Decimal digits of a natural number, most significant first. -/
def natDigits (n : Nat) : List Char := natDigitsAux (n + 1) n

/-- Python `str(n)` for a non-negative integer. -/
def pyNatRepr (n : Nat) : String := (natDigits n).asString

/-- Python `str(i)` for an arbitrary integer. -/
def pyIntRepr (i : Int) : String :=
  if i < 0 then "-" ++ pyNatRepr i.natAbs else pyNatRepr i.toNat

/-- Does `s` end with the character `c`?  (Python `s.endswith('.')` for the
one-character suffixes the code tests.) -/
def endsWithChar (s : String) (c : Char) : Bool :=
  match s.toList.reverse with
  | [] => false
  | x :: _ => x == c

/-- Python `s[:-1]`. -/
def dropLastChar (s : String) : String := s.toList.dropLast.asString

/-- Python's `needle in haystack` substring test. -/
def strContainsAux (needle : List Char) : List Char → Bool
  | [] => needle.isEmpty
  | c :: rest => needle.isPrefixOf (c :: rest) || strContainsAux needle rest

/-- Python's `needle in haystack` substring test on strings. -/
def strContains (haystack needle : String) : Bool :=
  strContainsAux needle.toList haystack.toList

/-- Python `sep.join(parts)`. -/
def pyJoin (sep : String) : List String → String
  | [] => ""
  | [x] => x
  | x :: y :: rest => x ++ sep ++ pyJoin sep (y :: rest)

/-- Concatenation of a list of character lists (`''.join` at list level). -/
def joinListSep (sep : List Char) : List (List Char) → List Char
  | [] => []
  | [x] => x
  | x :: y :: rest => x ++ sep ++ joinListSep sep (y :: rest)

/-- Python truthiness of an optional string (`None` and `''` are falsy). -/
def optStrTruthy : Option String → Bool
  | none => false
  | some s => !(s == "")

/-- Python `a or b` on optional strings: keeps `a` when truthy. -/
def pyOrOptStr (a b : Option String) : Option String :=
  if optStrTruthy a then a else b

/-! ### Data model (`app/models/citation_tracker.py`) -/

/-- `CitationStyle` enumeration. -/
inductive CitationStyle
  | APA
  | Chicago
  | MLA
  | IEEE
deriving DecidableEq

/-- `ChunkCitation` pydantic model.  `section` is a Lean keyword, hence the
field is named `section_`.  `publication_date` is modelled by its year (the
only component the code reads); the display-only `created_at` timestamp is
not modelled. -/
structure ChunkCitation where
  chunk_id : String
  pdf_name : String
  page_number : Int
  section_ : Option String := none
  text_excerpt : String
  citation_style : CitationStyle := CitationStyle.APA
  external_link : Option String := none
  authors : List String := []
  publication_date : Option Nat := none
  publisher : Option String := none
  doi : Option String := none
  isbn : Option String := none
  journal : Option String := none
  volume : Option String := none
  issue : Option String := none
deriving DecidableEq

/-- `InlineCitation` pydantic model. -/
structure InlineCitation where
  citation_number : Nat
  chunk_citation : ChunkCitation
  marker_text : String
  hover_content : String
  anchor_id : String
deriving DecidableEq

/-- `InlineCitation.reference_id` property. -/
def InlineCitation.reference_id (ic : InlineCitation) : String :=
  "ref-" ++ pyNatRepr ic.citation_number

/-- `InlineCitation.cite_id` property. -/
def InlineCitation.cite_id (ic : InlineCitation) : String :=
  "cite-" ++ pyNatRepr ic.citation_number

/-- `DocumentCitationRegistry` pydantic model; the `citations` dict is an
insertion-ordered association list. -/
structure DocumentCitationRegistry where
  document_id : String
  session_id : String
  citations : List (String × ChunkCitation) := []
  inline_citations : List InlineCitation := []
  citation_counter : Nat := 0
  citation_style : CitationStyle := CitationStyle.APA
  auto_generate_references : Bool := true
deriving DecidableEq

/-- Python `key in dict`. -/
def dictContains {α : Type} (d : List (String × α)) (k : String) : Bool :=
  d.any (fun kv => kv.1 == k)

/-- Python `dict[key] = value`: overwrite in place, else append. -/
def dictInsert {α : Type} (d : List (String × α)) (k : String) (v : α) :
    List (String × α) :=
  if dictContains d k then d.map (fun kv => if kv.1 == k then (k, v) else kv)
  else d ++ [(k, v)]

/-- Python `dict.get(key)`. -/
def dictGet? {α : Type} (d : List (String × α)) (k : String) : Option α :=
  (d.find? (fun kv => kv.1 == k)).map (fun kv => kv.2)

/-! ### Filename heuristic (`_extract_authors_from_filename`,
`_extract_title_from_filename`) -/

/-- Strip the `.pdf` / `.PDF` extension the way the source does:
`pdf_name.replace('.pdf', '').replace('.PDF', '')`. -/
def stripPdfExt (pdf_name : String) : String :=
  pyReplace (pyReplace pdf_name ".pdf" "") ".PDF" ""

/-- The year-token test of the heuristic:
`part.isdigit() and len(part) == 4 and 1900 <= int(part) <= 2030`. -/
def isYearToken (part : String) : Bool :=
  pyIsDigit part && part.length == 4
    && decide (1900 ≤ digitsToNat part) && decide (digitsToNat part ≤ 2030)

/-- `DocumentCitationRegistry._extract_authors_from_filename`.  The Python
`try`/`except` never fires for this pure computation, so no error case is
modelled. -/
def extract_authors_from_filename (pdf_name : String) : List String :=
  let parts := pySplit (stripPdfExt pdf_name) "-"
  let viaYear : Option (List String) :=
    if parts.length ≥ 3 then
      match parts.findIdx? isYearToken with
      | some year_idx =>
        if year_idx > 0 then
          let author_parts := parts.take year_idx
          if author_parts.length ≥ 2 ∧ author_parts.getD 1 "" = "et"
              ∧ author_parts.length > 2 ∧ author_parts.getD 2 "" = "al" then
            some [pyTitle (author_parts.getD 0 "")]
          else
            some (((author_parts.filter
              (fun p => !(["et", "al", "and"].contains (pyLower p)))).map pyTitle).take 3)
        else none
      | none => none
    else none
  match viaYear with
  | some authors => authors
  | none =>
    match parts with
    | [] => []
    | p :: _ => [pyTitle p]

/-- `DocumentCitationRegistry._extract_title_from_filename`. -/
def extract_title_from_filename (pdf_name : String) : String :=
  let parts := pySplit (stripPdfExt pdf_name) "-"
  let viaYear : Option String :=
    if parts.length ≥ 3 then
      match parts.findIdx? isYearToken with
      | some year_idx =>
        if year_idx < parts.length - 1 then
          some (pyJoin " " ((parts.drop (year_idx + 1)).map pyTitle))
        else none
      | none => none
    else none
  match viaYear with
  | some title => title
  | none => pyJoin " " (parts.map pyTitle)

/-! ### Registry core (`DocumentCitationRegistry.add_citation` and helpers) -/

/-- The dedup key `f"{pdf_name}|{page_number}"` of `add_citation`. -/
def sourceKey (c : ChunkCitation) : String :=
  c.pdf_name ++ "|" ++ pyIntRepr c.page_number

/-- The author part of `_generate_hover_content`:
`", ".join(authors[:2])` plus `" et al."` when more than two. -/
def hoverAuthorsStr (authors : List String) : String :=
  let s := pyJoin ", " (authors.take 2)
  if authors.length > 2 then s ++ " et al." else s

/-- `DocumentCitationRegistry._generate_hover_content`. -/
def generateHoverContent (citation : ChunkCitation) : String :=
  let authors :=
    if citation.authors.isEmpty then extract_authors_from_filename citation.pdf_name
    else citation.authors
  let parts : List String :=
    if authors.isEmpty then [] else ["👤 " ++ hoverAuthorsStr authors]
  let title := extract_title_from_filename citation.pdf_name
  let parts := parts ++ (if title = citation.pdf_name then [] else ["📖 " ++ title])
  let parts := parts ++ ["📄 Page " ++ pyIntRepr citation.page_number]
  let parts := parts ++
    (match citation.section_ with
     | some s => if s = "" then [] else ["📑 " ++ s]
     | none => [])
  let parts := parts ++
    (match citation.publication_date with
     | some y => ["📅 " ++ pyNatRepr y]
     | none => [])
  pyJoin " • " parts

/-- First phase of `add_citation`: scan the ordered inline citations for an
entry with the same `(pdf_name, page_number)` key. -/
def DocumentCitationRegistry.findBySource (reg : DocumentCitationRegistry)
    (c : ChunkCitation) : Option InlineCitation :=
  reg.inline_citations.find?
    (fun existing => sourceKey existing.chunk_citation == sourceKey c)

/-- Second phase of `add_citation`: if the `chunk_id` is a key of the
`citations` dict, scan the inline citations for an entry with that
`chunk_id`. -/
def DocumentCitationRegistry.findByChunkId (reg : DocumentCitationRegistry)
    (c : ChunkCitation) : Option InlineCitation :=
  if dictContains reg.citations c.chunk_id then
    reg.inline_citations.find?
      (fun existing => existing.chunk_citation.chunk_id == c.chunk_id)
  else none

/-- Third phase of `add_citation`: bump the counter, record the chunk, build
the new `InlineCitation` and append it. -/
def DocumentCitationRegistry.createNew (reg : DocumentCitationRegistry)
    (c : ChunkCitation) : DocumentCitationRegistry × InlineCitation :=
  let n := reg.citation_counter + 1
  let inline : InlineCitation :=
    { citation_number := n
      chunk_citation := c
      marker_text := "[" ++ pyNatRepr n ++ "]"
      hover_content := generateHoverContent c
      anchor_id := "cite-" ++ pyNatRepr n }
  ({ reg with
      citation_counter := n
      citations := dictInsert reg.citations c.chunk_id c
      inline_citations := reg.inline_citations ++ [inline] },
   inline)

/-- `DocumentCitationRegistry.add_citation`: dedup by source+page, then by
`chunk_id` membership, else create a new numbered citation.  The mutated
registry is returned explicitly. -/
def DocumentCitationRegistry.add_citation (reg : DocumentCitationRegistry)
    (c : ChunkCitation) : DocumentCitationRegistry × InlineCitation :=
  match reg.findBySource c with
  | some existing => (reg, existing)
  | none =>
    match reg.findByChunkId c with
    | some existing => (reg, existing)
    | none => reg.createNew c

/-- Folds a list of `add_citation` calls over a registry, keeping the state. -/
def addAll (reg : DocumentCitationRegistry) (cs : List ChunkCitation) :
    DocumentCitationRegistry :=
  cs.foldl (fun r c => (r.add_citation c).1) reg

/-! ### Reference formatting (`_format_*_reference`,
`generate_references_section`) -/

/-- The two renderings of `datetime.now()` used by the formatters
(`'%B %d, %Y'` for Chicago, `'%d %b %Y'` for MLA), passed explicitly. -/
structure Clock where
  chicagoDate : String
  mlaDate : String
deriving DecidableEq

/-- `DocumentCitationRegistry._format_apa_reference`. -/
def formatApaReference (citation : ChunkCitation) : String :=
  let parts : List String :=
    if !citation.authors.isEmpty then
      if citation.authors.length = 1 then [(citation.authors.getD 0 "") ++ "."]
      else if citation.authors.length ≤ 6 then
        [pyJoin ", " citation.authors.dropLast
          ++ ", & " ++ (citation.authors.getLastD "") ++ "."]
      else [(citation.authors.getD 0 "") ++ " et al."]
    else
      match extract_authors_from_filename citation.pdf_name with
      | [] => ["[No author]."]
      | [a] => [a ++ "."]
      | a :: _ :: _ => [a ++ " et al."]
  let parts := parts ++
    (match citation.publication_date with
     | some y => ["(" ++ pyNatRepr y ++ ")."]
     | none => [])
  let parts := parts ++
    (if optStrTruthy citation.journal then
      ["*" ++ citation.journal.getD "" ++ "*."]
     else
      ["*" ++ extract_title_from_filename citation.pdf_name ++ "*."])
  let parts := parts ++
    (if optStrTruthy citation.external_link then
      ["Retrieved from " ++ citation.external_link.getD ""]
     else
      ["Page " ++ pyIntRepr citation.page_number ++ "."])
  pyJoin " " parts

/-- `DocumentCitationRegistry._format_chicago_reference`. -/
def formatChicagoReference (clock : Clock) (citation : ChunkCitation) : String :=
  let parts : List String :=
    if !citation.authors.isEmpty then
      if citation.authors.length = 1 then [(citation.authors.getD 0 "") ++ "."]
      else [(citation.authors.getD 0 "") ++ " et al."]
    else
      match extract_authors_from_filename citation.pdf_name with
      | [] => []
      | [a] => [a ++ "."]
      | a :: _ :: _ => [a ++ " et al."]
  let title := extract_title_from_filename citation.pdf_name
  let parts := parts ++
    (if optStrTruthy citation.journal then
      ["\"" ++ title ++ ".\" *" ++ citation.journal.getD "" ++ "*"]
     else
      ["*" ++ title ++ "*."])
  let parts := parts ++
    (match citation.publication_date with
     | some y => ["(" ++ pyNatRepr y ++ "):"]
     | none => [])
  let parts := parts ++ [pyIntRepr citation.page_number ++ "."]
  let parts := parts ++
    (if optStrTruthy citation.external_link then
      ["Accessed " ++ clock.chicagoDate ++ ". " ++ citation.external_link.getD "" ++ "."]
     else [])
  pyJoin " " parts

/-- `DocumentCitationRegistry._format_mla_reference`. -/
def formatMlaReference (clock : Clock) (citation : ChunkCitation) : String :=
  let parts : List String :=
    if !citation.authors.isEmpty then [(citation.authors.getD 0 "") ++ "."]
    else
      match extract_authors_from_filename citation.pdf_name with
      | [] => []
      | a :: _ => [a ++ "."]
  let title := extract_title_from_filename citation.pdf_name
  let parts := parts ++ ["\"" ++ title ++ ".\""]
  let parts := parts ++
    (if optStrTruthy citation.journal then
      ["*" ++ citation.journal.getD "" ++ "*,"]
     else [])
  let parts := parts ++
    (match citation.publication_date with
     | some y => [pyNatRepr y ++ ","]
     | none => [])
  let parts := parts ++ ["p. " ++ pyIntRepr citation.page_number ++ "."]
  let parts := parts ++
    (if optStrTruthy citation.external_link then
      ["Web. " ++ clock.mlaDate ++ "."]
     else [])
  pyJoin " " parts

/-- `DocumentCitationRegistry._format_default_reference`. -/
def formatDefaultReference (citation : ChunkCitation) : String :=
  let parts : List String :=
    if !citation.authors.isEmpty then
      [pyJoin ", " citation.authors]
    else
      match extract_authors_from_filename citation.pdf_name with
      | [] => []
      | l => [pyJoin ", " l]
  let parts := parts ++ [extract_title_from_filename citation.pdf_name]
  let parts := parts ++ ["Page " ++ pyIntRepr citation.page_number]
  let parts := parts ++
    (if optStrTruthy citation.external_link then
      ["Available at: " ++ citation.external_link.getD ""]
     else [])
  pyJoin ". " parts ++ "."

/-- `DocumentCitationRegistry._format_reference`: dispatch on the citation's
own style. -/
def formatReference (clock : Clock) (ic : InlineCitation) : String :=
  match ic.chunk_citation.citation_style with
  | CitationStyle.APA => formatApaReference ic.chunk_citation
  | CitationStyle.Chicago => formatChicagoReference clock ic.chunk_citation
  | CitationStyle.MLA => formatMlaReference clock ic.chunk_citation
  | CitationStyle.IEEE => formatDefaultReference ic.chunk_citation

/-- `DocumentCitationRegistry.generate_references_section`. -/
def DocumentCitationRegistry.generate_references_section
    (reg : DocumentCitationRegistry) (clock : Clock) : String :=
  if reg.inline_citations.isEmpty then ""
  else
    pyJoin "\n"
      ("## References\n" ::
        reg.inline_citations.map
          (fun ic => pyNatRepr ic.citation_number ++ ". " ++ formatReference clock ic ++ "\n"))

/-! ### Citation tracker service (`app/services/citation_tracker.py`) -/

/-- `CitationConfig` pydantic model (fields the tracker reads). -/
structure CitationConfig where
  citation_style : CitationStyle := CitationStyle.APA
  auto_generate_references : Bool := true
  show_inline_citations : Bool := true
  enable_hover_tooltips : Bool := true
  custom_metadata_fields : List String := []
  include_doi : Bool := true
  include_url : Bool := true
deriving DecidableEq

/-- The module-level `_global_registries` dict, passed as explicit state. -/
def Registries : Type := List (String × DocumentCitationRegistry)

/-- `CitationTracker.create_registry`: unconditionally builds a fresh
registry and stores it under `document_id`. -/
def create_registry (regs : Registries) (config : CitationConfig)
    (document_id session_id : String) : Registries × DocumentCitationRegistry :=
  let registry : DocumentCitationRegistry :=
    { document_id := document_id
      session_id := session_id
      citations := []
      inline_citations := []
      citation_counter := 0
      citation_style := config.citation_style
      auto_generate_references := config.auto_generate_references }
  (dictInsert regs document_id registry, registry)

/-- `CitationTracker.get_registry`. -/
def get_registry (regs : Registries) (document_id : String) :
    Option DocumentCitationRegistry :=
  dictGet? regs document_id

/-- The registry-creation guard used by the generation pipeline
(`generation_service.synthesize_section`): fetch the existing registry,
create one only when absent. -/
def getOrCreateRegistry (regs : Registries) (config : CitationConfig)
    (document_id session_id : String) : Registries × DocumentCitationRegistry :=
  match get_registry regs document_id with
  | some registry => (regs, registry)
  | none => create_registry regs config document_id session_id

/-- `CitationTracker.add_citation_to_document`: raises `ValueError` when the
document has no registry, modelled by `Except`. -/
def add_citation_to_document (regs : Registries) (document_id : String)
    (chunk_citation : ChunkCitation) :
    Except String (Registries × InlineCitation) :=
  match get_registry regs document_id with
  | none => Except.error ("No citation registry found for document " ++ document_id)
  | some registry =>
    let res := registry.add_citation chunk_citation
    Except.ok (dictInsert regs document_id res.1, res.2)

/-- `CitationTracker.generate_references_section`: empty string when there is
no registry or auto-generation is disabled. -/
def tracker_generate_references_section (regs : Registries)
    (document_id : String) (clock : Clock) : String :=
  match get_registry regs document_id with
  | none => ""
  | some registry =>
    if !registry.auto_generate_references then ""
    else registry.generate_references_section clock

/-- `CitationTracker.append_references_to_content`. -/
def append_references_to_content (regs : Registries) (content : String)
    (document_id : String) (clock : Clock) : String :=
  let references_section := tracker_generate_references_section regs document_id clock
  if references_section = "" then content
  else if strContains content "## References" then content
  else content ++ "\n\n" ++ references_section

/-! ### Inline citation injection (`generation_service.synthesize_section`,
the "add citations at the end of paragraphs" block) -/

/-- Splice a citation marker string into one paragraph: just before the
trailing period of the right-stripped paragraph if it ends with one,
otherwise at its right-stripped end. -/
def insertMarker (paragraph ref : String) : String :=
  let r := pyRstrip paragraph
  if endsWithChar r '.' then dropLastChar r ++ ref ++ "." else r ++ ref

/-- Processing of the paragraph at index `i` (out of `numParagraphs`) given
the citation numbers of this generation round, as in the source: one marker
per qualifying paragraph while numbers remain, and all numbers but the first
appended to the last paragraph when its index is at or past the supply. -/
def processParagraph (numParagraphs : Nat) (nums : List Nat) (i : Nat)
    (paragraph : String) : String :=
  if pyStrip paragraph ≠ "" ∧ (pyStrip paragraph).length > 50 then
    if i < nums.length then
      insertMarker paragraph (" [" ++ pyNatRepr (nums.getD i 0) ++ "]")
    else if i = numParagraphs - 1 ∧ nums.length > 1 then
      let remaining := (nums.drop 1).map pyNatRepr
      if !remaining.isEmpty then
        insertMarker paragraph
          (" " ++ pyJoin " "
            (remaining.map (fun s => "[" ++ s ++ "]")))
      else paragraph
    else paragraph
  else paragraph

/-- The paragraph-granular injection of `synthesize_section`: split on blank
lines, process each paragraph, rejoin.  (`nums` are the citation numbers
returned by `add_citation` for this section, in order.) -/
def injectCitationNumbers (content : String) (nums : List Nat) : String :=
  if nums.isEmpty then content
  else
    let paragraphs := pySplit content "\n\n"
    let processed :=
      ((List.range paragraphs.length).zip paragraphs).map
        (fun ip => processParagraph paragraphs.length nums ip.1 ip.2)
    pyJoin "\n\n" processed

/-! ### Chunk extraction (`CitationTracker.extract_citation_from_chunk`) -/

/-- The loosely-typed values a retrieval-metadata mapping can carry.
`pynone` is an explicit Python `None` entry; `date` is a `datetime` value
modelled by its year. -/
inductive PyVal
  | pynone
  | str (s : String)
  | int (n : Int)
  | listStr (l : List String)
  | date (y : Nat)
deriving DecidableEq

/-- A metadata mapping: insertion-ordered string-keyed dict of loose values. -/
def Metadata : Type := List (String × PyVal)

/-- Python `metadata.get(key)` (absent key gives `None`, modelled `none`). -/
def mdGet (md : Metadata) (k : String) : Option PyVal := dictGet? md k

/-- Python `metadata.get(key, default)`. -/
def mdGetD (md : Metadata) (k : String) (d : PyVal) : PyVal := (mdGet md k).getD d

/-- Python truthiness of a loose value (used by the `or` chains). -/
def pyValTruthy : Option PyVal → Bool
  | none => false
  | some PyVal.pynone => false
  | some (PyVal.str s) => !(s == "")
  | some (PyVal.int n) => !(n == 0)
  | some (PyVal.listStr l) => !l.isEmpty
  | some (PyVal.date _) => true

/-- Python `a or b` on loose values. -/
def pyOrVal (a b : Option PyVal) : Option PyVal := if pyValTruthy a then a else b

/-- `re.search(r'\d+', s)`: the numeric value of the first maximal run of
decimal digits, if any. -/
def firstDigitRun : List Char → Option Nat
  | [] => none
  | c :: rest =>
    if c.isDigit then
      some (((c :: rest).takeWhile Char.isDigit).foldl
        (fun a ch => a * 10 + (ch.toNat - 48)) 0)
    else firstDigitRun rest

/-- The `if isinstance(page_number, str): page_number = int(re.search(...))`
recovery block: a string page becomes the value of its first digit run, or 1
when it has none; every other value is passed through unchanged. -/
def convertPageVal : PyVal → PyVal
  | PyVal.str s =>
    PyVal.int (match firstDigitRun s.toList with
               | some n => (n : Int)
               | none => 1)
  | v => v

/-- The `if isinstance(authors, str): authors = [authors]` wrapping block. -/
def convertAuthorsVal : PyVal → PyVal
  | PyVal.str s => PyVal.listStr [s]
  | v => v

/-- pydantic validation of a required `str` field. -/
def asStr (field : String) : Option PyVal → Except String String
  | some (PyVal.str s) => Except.ok s
  | _ => Except.error (field ++ ": str required")

/-- pydantic validation of an `Optional[str]` field. -/
def asOptStr (field : String) : Option PyVal → Except String (Option String)
  | none => Except.ok none
  | some PyVal.pynone => Except.ok none
  | some (PyVal.str s) => Except.ok (some s)
  | _ => Except.error (field ++ ": str or None required")

/-- pydantic validation of the `page_number` field: `int` with `ge=1`. -/
def asPageNumber : Option PyVal → Except String Int
  | some (PyVal.int n) =>
    if n < 1 then Except.error "page_number: input should be >= 1"
    else Except.ok n
  | _ => Except.error "page_number: int required"

/-- pydantic validation of the `authors` field (`Optional[List[str]]`):
a `None` value validates, and a stored `None` behaves exactly like `[]` in
every downstream use (only truthiness is ever tested), so it is modelled
as `[]`. -/
def asAuthors : Option PyVal → Except String (List String)
  | some (PyVal.listStr l) => Except.ok l
  | some PyVal.pynone => Except.ok []
  | _ => Except.error "authors: list of str required"

/-- pydantic validation of the `publication_date` field
(`Optional[datetime]`): only actual `datetime` values and `None` are
modelled as valid (pydantic's lenient timestamp/ISO-string coercions are
outside the model). -/
def asOptDate : Option PyVal → Except String (Option Nat)
  | none => Except.ok none
  | some PyVal.pynone => Except.ok none
  | some (PyVal.date y) => Except.ok (some y)
  | _ => Except.error "publication_date: datetime or None required"

/-- `CitationTracker.extract_citation_from_chunk`.  The caller-supplied (or
uuid4-generated) `chunk_id` is passed in explicitly.  The pydantic
`ChunkCitation(...)` construction validates the loose values; a validation
failure is the Python `ValidationError`. -/
def extract_citation_from_chunk (config : CitationConfig)
    (chunk_content : String) (chunk_metadata : Metadata) (chunk_id : String) :
    Except String ChunkCitation := do
  let pdf_name_v := mdGetD chunk_metadata "source" (PyVal.str "Unknown Source")
  let page_v := convertPageVal (mdGetD chunk_metadata "page" (PyVal.int 1))
  let section_v := pyOrVal (mdGet chunk_metadata "section") (mdGet chunk_metadata "chapter")
  let text_excerpt :=
    if chunk_content.length > 150 then (chunk_content.toList.take 150).asString ++ "..."
    else chunk_content
  let authors_v := convertAuthorsVal (mdGetD chunk_metadata "authors" (PyVal.listStr []))
  let link_v := pyOrVal (mdGet chunk_metadata "url") (mdGet chunk_metadata "file_path")
  let pdf_name ← asStr "pdf_name" (some pdf_name_v)
  let page_number ← asPageNumber (some page_v)
  let section_ ← asOptStr "section" section_v
  let authors ← asAuthors (some authors_v)
  let external_link ← asOptStr "external_link" link_v
  let publication_date ← asOptDate (mdGet chunk_metadata "publication_date")
  let publisher ← asOptStr "publisher" (mdGet chunk_metadata "publisher")
  let doi ← asOptStr "doi" (mdGet chunk_metadata "doi")
  let isbn ← asOptStr "isbn" (mdGet chunk_metadata "isbn")
  let journal ← asOptStr "journal" (mdGet chunk_metadata "journal")
  let volume ← asOptStr "volume" (mdGet chunk_metadata "volume")
  let issue ← asOptStr "issue" (mdGet chunk_metadata "issue")
  pure
    { chunk_id := chunk_id
      pdf_name := pdf_name
      page_number := page_number
      section_ := section_
      text_excerpt := text_excerpt
      citation_style := config.citation_style
      external_link := external_link
      authors := authors
      publication_date := publication_date
      publisher := publisher
      doi := doi
      isbn := isbn
      journal := journal
      volume := volume
      issue := issue }

/-! ### JSON citation export (`GenerationService.export_citations`,
format `"json"`).  `json.dumps` with its default `ensure_ascii` escaping is
modelled character by character, and an independent recursive-descent parser
plays the role of `json.loads` for the round-trip property. -/

/-- One record of the export payload:
`{"citation_number": ..., "text": ..., "source": ..., "page": ...}`. -/
structure ExportRecord where
  citation_number : Nat
  text : String
  source : String
  page : Int
deriving DecidableEq

/-- The export payload built by `export_citations` from the registry. -/
def exportRecords (reg : DocumentCitationRegistry) : List ExportRecord :=
  reg.inline_citations.map
    (fun ic =>
      { citation_number := ic.citation_number
        text := ic.chunk_citation.text_excerpt
        source := ic.chunk_citation.pdf_name
        page := ic.chunk_citation.page_number })

/-- Lowercase hexadecimal digit character (as `'%04x'` prints). -/
def hexDigitChar (n : Nat) : Char :=
  if n < 10 then Char.ofNat (48 + n) else Char.ofNat (87 + n)

/-- The four hex digits of `v < 0x10000`, most significant first. -/
def hex4 (v : Nat) : List Char :=
  [hexDigitChar (v / 4096 % 16), hexDigitChar (v / 256 % 16),
   hexDigitChar (v / 16 % 16), hexDigitChar (v % 16)]

/-- `json.dumps` escaping of one character (default `ensure_ascii=True`):
two-character escapes for quote, backslash and the common control
characters, `\uXXXX` for other control and all non-ASCII characters, with
surrogate pairs beyond the basic multilingual plane. -/
def escapeChar (c : Char) : List Char :=
  if c = '"' then ['\\', '"']
  else if c = '\\' then ['\\', '\\']
  else if c = '\n' then ['\\', 'n']
  else if c = '\r' then ['\\', 'r']
  else if c = '\t' then ['\\', 't']
  else if c = '\x08' then ['\\', 'b']
  else if c = '\x0c' then ['\\', 'f']
  else if c.toNat < 0x20 then '\\' :: 'u' :: hex4 c.toNat
  else if c.toNat < 0x7f then [c]
  else if c.toNat < 0x10000 then '\\' :: 'u' :: hex4 c.toNat
  else
    ('\\' :: 'u' :: hex4 (0xD800 + (c.toNat - 0x10000) / 0x400)) ++
    ('\\' :: 'u' :: hex4 (0xDC00 + (c.toNat - 0x10000) % 0x400))

/-- Escape a character list. -/
def escapeList : List Char → List Char
  | [] => []
  | c :: rest => escapeChar c ++ escapeList rest

/-- `json.dumps` of a string value. -/
def dumpsStr (s : String) : List Char := '"' :: (escapeList s.toList ++ ['"'])

/-- `str(i)` / `json.dumps` of an integer. -/
def dumpsInt (i : Int) : List Char :=
  if i < 0 then '-' :: natDigits i.natAbs else natDigits i.toNat

/-- `json.dumps` of one export record, with the default `', '` / `': '`
separators and insertion-ordered keys. -/
def dumpsRecord (r : ExportRecord) : List Char :=
  ("\x7b\"citation_number\": ").toList ++ natDigits r.citation_number ++
  (", \"text\": ").toList ++ dumpsStr r.text ++
  (", \"source\": ").toList ++ dumpsStr r.source ++
  (", \"page\": ").toList ++ dumpsInt r.page ++ ['\x7d']

/-- `json.dumps` of the record array. -/
def dumpsRecords (rs : List ExportRecord) : List Char :=
  '[' :: (joinListSep (", ").toList (rs.map dumpsRecord) ++ [']'])

/-- `GenerationService.export_citations(document_id, "json")`:
`json.dumps({"document_id": ..., "citations": [...]})`. -/
def export_citations_json (reg : DocumentCitationRegistry) : String :=
  (("\x7b\"document_id\": ").toList ++ dumpsStr reg.document_id ++
   (", \"citations\": ").toList ++ dumpsRecords (exportRecords reg) ++
   ['\x7d']).asString

/-- Value of a hexadecimal digit character (either case). -/
def parseHexDigit (c : Char) : Option Nat :=
  if '0' ≤ c ∧ c ≤ '9' then some (c.toNat - 48)
  else if 'a' ≤ c ∧ c ≤ 'f' then some (c.toNat - 87)
  else if 'A' ≤ c ∧ c ≤ 'F' then some (c.toNat - 55)
  else none

/-- Value of four hexadecimal digit characters. -/
def parseHex4 (a b c d : Char) : Option Nat :=
  match parseHexDigit a, parseHexDigit b, parseHexDigit c, parseHexDigit d with
  | some x, some y, some z, some w => some (((x * 16 + y) * 16 + z) * 16 + w)
  | _, _, _, _ => none

/-- Prepend a decoded character to a string-body parse result. -/
def consParsed (c : Char) (o : Option (List Char × List Char)) :
    Option (List Char × List Char) :=
  o.map (fun p => (c :: p.1, p.2))

/-- Two-character escape sequences accepted by `json.loads`. -/
def simpleUnescape (e : Char) : Option Char :=
  if e = '"' then some '"'
  else if e = '\\' then some '\\'
  else if e = '/' then some '/'
  else if e = 'n' then some '\n'
  else if e = 'r' then some '\r'
  else if e = 't' then some '\t'
  else if e = 'b' then some '\x08'
  else if e = 'f' then some '\x0c'
  else none

/-- Body of a JSON string literal (after the opening quote): decodes up to
and past the closing quote, returning the decoded characters and the rest of
the input.  Fuelled; one unit of fuel is spent per decoded character. -/
def parseStrBody : Nat → List Char → Option (List Char × List Char)
  | 0, _ => none
  | _, [] => none
  | fuel + 1, c :: rest =>
    if c = '"' then some ([], rest)
    else if c = '\\' then
      match rest with
      | [] => none
      | e :: rest2 =>
        if e = 'u' then
          match rest2 with
          | a :: b :: c3 :: d :: rest3 =>
            (match parseHex4 a b c3 d with
             | none => none
             | some v =>
               if 0xD800 ≤ v ∧ v < 0xDC00 then
                 match rest3 with
                 | bs :: u2 :: a2 :: b2 :: c4 :: d2 :: rest4 =>
                   if bs = '\\' ∧ u2 = 'u' then
                     (match parseHex4 a2 b2 c4 d2 with
                      | none => none
                      | some w =>
                        if 0xDC00 ≤ w ∧ w < 0xE000 then
                          consParsed
                            (Char.ofNat (0x10000 + (v - 0xD800) * 0x400 + (w - 0xDC00)))
                            (parseStrBody fuel rest4)
                        else none)
                   else none
                 | _ => none
               else if 0xDC00 ≤ v ∧ v < 0xE000 then none
               else consParsed (Char.ofNat v) (parseStrBody fuel rest3))
          | _ => none
        else
          match simpleUnescape e with
          | some c2 => consParsed c2 (parseStrBody fuel rest2)
          | none => none
    else consParsed c (parseStrBody fuel rest)

/-- A JSON string literal, opening quote included. -/
def parseJsonString : List Char → Option (String × List Char)
  | [] => none
  | c :: rest =>
    if c = '"' then
      (parseStrBody (rest.length + 1) rest).map (fun p => (p.1.asString, p.2))
    else none

/-- Greedily consume decimal digits, accumulating their value. -/
def grabDigits (acc : Nat) : List Char → Nat × List Char
  | [] => (acc, [])
  | c :: rest =>
    if c.isDigit then grabDigits (acc * 10 + (c.toNat - 48)) rest
    else (acc, c :: rest)

/-- A decimal natural number (at least one digit). -/
def parseNat : List Char → Option (Nat × List Char)
  | [] => none
  | c :: rest =>
    if c.isDigit then some (grabDigits 0 (c :: rest)) else none

/-- A decimal integer with optional leading minus sign. -/
def parseInt : List Char → Option (Int × List Char)
  | [] => none
  | c :: rest =>
    if c = '-' then (parseNat rest).map (fun p => (-(p.1 : Int), p.2))
    else (parseNat (c :: rest)).map (fun p => ((p.1 : Int), p.2))

/-- Consume an exact literal. -/
def expectLit : List Char → List Char → Option (List Char)
  | [], input => some input
  | _ :: _, [] => none
  | l :: ls, c :: rest => if c = l then expectLit ls rest else none

/-- One export record, braces included. -/
def parseRecord (l : List Char) : Option (ExportRecord × List Char) :=
  (expectLit ("\x7b\"citation_number\": ").toList l).bind fun l1 =>
  (parseNat l1).bind fun pn =>
  (expectLit (", \"text\": ").toList pn.2).bind fun l2 =>
  (parseJsonString l2).bind fun pt =>
  (expectLit (", \"source\": ").toList pt.2).bind fun l3 =>
  (parseJsonString l3).bind fun ps =>
  (expectLit (", \"page\": ").toList ps.2).bind fun l4 =>
  (parseInt l4).bind fun pp =>
  (expectLit ['\x7d'] pp.2).map fun l5 =>
  ({ citation_number := pn.1, text := pt.1, source := ps.1, page := pp.1 }, l5)

/-- Non-empty comma-separated record sequence up to and past the closing
bracket.  Fuelled; one unit of fuel is spent per record. -/
def parseRecordsLoop : Nat → List Char → Option (List ExportRecord × List Char)
  | 0, _ => none
  | fuel + 1, l =>
    (parseRecord l).bind fun pr =>
    match pr.2 with
    | ']' :: rest => some ([pr.1], rest)
    | ',' :: ' ' :: rest =>
      (parseRecordsLoop fuel rest).map (fun p => (pr.1 :: p.1, p.2))
    | _ => none

/-- A JSON array of export records. -/
def parseRecords (l : List Char) : Option (List ExportRecord × List Char) :=
  match l with
  | '[' :: ']' :: rest => some ([], rest)
  | '[' :: rest => parseRecordsLoop (rest.length + 1) rest
  | _ => none

/-- `json.loads` of the export payload: the document id and the list of
citation records. -/
def parseExport (s : String) : Option (String × List ExportRecord) :=
  (expectLit ("\x7b\"document_id\": ").toList s.toList).bind fun l1 =>
  (parseJsonString l1).bind fun pd =>
  (expectLit (", \"citations\": ").toList pd.2).bind fun l2 =>
  (parseRecords l2).bind fun pr =>
  match pr.2 with
  | ['\x7d'] => some (pd.1, pr.1)
  | _ => none

/-! ### Shared fixtures and helper lemmas -/

/-- A minimal chunk citation fixture. -/
def mkChunk (cid pdf : String) (pg : Int) : ChunkCitation :=
  { chunk_id := cid, pdf_name := pdf, page_number := pg, text_excerpt := "excerpt" }

/-- A freshly created registry, as `create_registry` builds it. -/
def regFresh : DocumentCitationRegistry := (create_registry [] {} "doc-1" "sess-1").2

theorem dictGet?_cons {α : Type} (x : String × α) (l : List (String × α)) (k : String) :
    dictGet? (x :: l) k = if x.1 = k then some x.2 else dictGet? l k := by
  by_cases h : x.1 = k
  · simp [dictGet?, List.find?_cons_of_pos, h]
  · have hb : (x.1 == k) = false := by simp [beq_iff_eq, h]
    simp [dictGet?, List.find?_cons_of_neg, h, hb]

theorem dictGet?_map_overwrite {α : Type} (t : List (String × α)) (k : String) (v : α) :
    dictGet? (t.map (fun kv => if kv.1 == k then (k, v) else kv)) k =
      if dictContains t k then some v else none := by
  induction t with
  | nil => simp [dictGet?, dictContains]
  | cons kv t ih =>
    by_cases h : kv.1 = k
    · simp [List.map_cons, beq_iff_eq, h, dictGet?_cons, dictContains]
    · have hb : (kv.1 == k) = false := by simp [beq_iff_eq, h]
      simp only [List.map_cons, beq_iff_eq, dictContains, List.any_cons,
        decide_eq_true_eq] at ih ⊢
      rw [dictGet?_cons]
      simp only [h, if_false, ih, hb, Bool.false_or]

theorem dictGet?_append_single {α : Type} (t : List (String × α)) (k : String) (v : α)
    (h : dictContains t k = false) : dictGet? (t ++ [(k, v)]) k = some v := by
  induction t with
  | nil => simp [dictGet?_cons]
  | cons kv t ih =>
    simp only [dictContains, List.any_cons, Bool.or_eq_false_iff, beq_eq_false_iff_ne,
      ne_eq] at h
    simp only [List.cons_append, dictGet?_cons, h.1, if_false]
    exact ih (by simpa [dictContains] using h.2)

theorem dictGet?_dictInsert_self {α : Type} (d : List (String × α)) (k : String) (v : α) :
    dictGet? (dictInsert d k v) k = some v := by
  by_cases hc : dictContains d k = true
  · simp only [dictInsert, hc, if_true]
    rw [dictGet?_map_overwrite, hc]
    simp
  · simp only [Bool.not_eq_true] at hc
    simp [dictInsert, hc, dictGet?_append_single d k v hc]

/-! ### C4 — filename heuristic on the spec's concrete inputs -/

/-- C4, counterexample: the claim states that author extraction applied to
`"smith-jones-et-al-2019-drug-stability-analysis.pdf"` returns `["Smith"]`;
the code's et-al collapse requires the token after the first to be `"et"`,
so on this two-author filename it instead filters the stray `et`/`al`
tokens and returns `["Smith", "Jones"]`. -/
theorem c4_counterexample :
    extract_authors_from_filename "smith-jones-et-al-2019-drug-stability-analysis.pdf"
      ≠ ["Smith"] := by decide

/-- C4, amended: on
`"smith-jones-et-al-2019-drug-stability-analysis.pdf"` author extraction
returns `["Smith", "Jones"]` (the et-al collapse to a single author fires
only for the `lastname-et-al-YYYY-...` shape) and title extraction returns
`"Drug Stability Analysis"`; on `"report.pdf"` (no year token) author
extraction returns `["Report"]` and title extraction returns `"Report"`. -/
theorem c4_filename_heuristic :
    extract_authors_from_filename "smith-jones-et-al-2019-drug-stability-analysis.pdf"
        = ["Smith", "Jones"]
      ∧ extract_title_from_filename "smith-jones-et-al-2019-drug-stability-analysis.pdf"
        = "Drug Stability Analysis"
      ∧ extract_authors_from_filename "report.pdf" = ["Report"]
      ∧ extract_title_from_filename "report.pdf" = "Report" :=
  ⟨by decide, by decide, by decide, by decide⟩

/-- C4, supporting evaluation: the single-author et-al shape the collapse was
written for does collapse. -/
theorem c4_et_al_collapse_single :
    extract_authors_from_filename "smith-et-al-2019-drug-stability-analysis.pdf"
      = ["Smith"] := by decide

/-! ### C5 — paragraph-granular injection boundary -/

set_option maxRecDepth 20000 in
/-- C5, evaluation at the failing input: three blank-line-separated
paragraphs, each longer than 50 characters, with the two fresh citation
numbers `[1, 2]`.  Markers `[1]` and `[2]` are appended to paragraphs 1
and 2 as the claim states, but the `elif i == len(paragraphs) - 1 and
len(new_citation_numbers) > 1` branch then appends the "remaining"
citations `nums[1:]` — which were already placed — to the final paragraph,
so paragraph 3 is *not* left unchanged: it receives a duplicate `[2]`. -/
theorem c5_injection_duplicates_marker :
    injectCitationNumbers
      ("The drug substance was characterized by several orthogonal analytical methods"
        ++ "\n\n"
        ++ "Stability studies were conducted under accelerated and long term conditions"
        ++ "\n\n"
        ++ "All results met the predefined acceptance criteria for this product")
      [1, 2]
    = "The drug substance was characterized by several orthogonal analytical methods [1]"
        ++ "\n\n"
        ++ "Stability studies were conducted under accelerated and long term conditions [2]"
        ++ "\n\n"
        ++ "All results met the predefined acceptance criteria for this product [2]" := by
  decide

/-! ### C6 — `create_registry` and lost citations -/

/-- C6, counterexample: create a registry for `"doc-1"`, record one citation
(the registry then holds one inline citation), then call `create_registry`
again for the same `document_id`.  The second call unconditionally stores a
fresh registry, so `get_registry` now returns a registry with zero inline
citations — the recorded citation is no longer retrievable, refuting the
claim at this input. -/
theorem c6_counterexample :
    ((add_citation_to_document (create_registry [] {} "doc-1" "sess-1").1 "doc-1"
        (mkChunk "c1" "doc1.pdf" 3)).toOption.map
      (fun p =>
        ((get_registry p.1 "doc-1").map (fun r => r.inline_citations.length),
         (get_registry (create_registry p.1 {} "doc-1" "sess-1").1 "doc-1").map
           (fun r => r.inline_citations.length))))
    = some (some 1, some 0) := by decide

/-- C6, amended: `create_registry` always builds a brand-new empty registry
and overwrites any stored one — after a repeated call the stored registry
for that `document_id` is the fresh empty one, so previously recorded
citations are no longer retrievable through it; idempotent-safety is
achieved only by the caller-side guard used by the generation pipeline
(`get_registry` first, create only when absent), which returns the existing
registry and leaves the store untouched. -/
theorem c6_create_registry_overwrites (regs : Registries) (config : CitationConfig)
    (document_id session_id : String) :
    (create_registry regs config document_id session_id).2 =
        { document_id := document_id
          session_id := session_id
          citations := []
          inline_citations := []
          citation_counter := 0
          citation_style := config.citation_style
          auto_generate_references := config.auto_generate_references }
      ∧ get_registry (create_registry regs config document_id session_id).1 document_id =
          some (create_registry regs config document_id session_id).2
      ∧ ∀ r, get_registry regs document_id = some r →
          getOrCreateRegistry regs config document_id session_id = (regs, r) := by
  refine ⟨rfl, ?_, ?_⟩
  · exact dictGet?_dictInsert_self regs document_id _
  · intro r h
    simp [getOrCreateRegistry, h]

/-- C6, witness for the amended theorem at a concrete store. -/
theorem c6_witness :
    getOrCreateRegistry [("doc-1", regFresh)] {} "doc-1" "sess-1"
      = ([("doc-1", regFresh)], regFresh) :=
  (c6_create_registry_overwrites [("doc-1", regFresh)] {} "doc-1" "sess-1").2.2
    regFresh (by decide)

/-! ### Registry lemmas for C1–C3 -/

theorem createNew_fst_inline (reg : DocumentCitationRegistry) (c : ChunkCitation) :
    ((reg.createNew c).1).inline_citations
      = reg.inline_citations ++ [(reg.createNew c).2] := rfl

theorem createNew_snd_cc (reg : DocumentCitationRegistry) (c : ChunkCitation) :
    ((reg.createNew c).2).chunk_citation = c := rfl

theorem createNew_snd_num (reg : DocumentCitationRegistry) (c : ChunkCitation) :
    ((reg.createNew c).2).citation_number = reg.citation_counter + 1 := rfl

theorem createNew_fst_counter (reg : DocumentCitationRegistry) (c : ChunkCitation) :
    ((reg.createNew c).1).citation_counter = reg.citation_counter + 1 := rfl

/-- Every `add_citation` call either leaves the registry untouched (both
dedup paths) or is exactly `createNew`. -/
theorem add_citation_result (reg : DocumentCitationRegistry) (c : ChunkCitation) :
    (reg.add_citation c).1 = reg ∨ reg.add_citation c = reg.createNew c := by
  unfold DocumentCitationRegistry.add_citation
  cases h1 : reg.findBySource c with
  | some e => left; rfl
  | none =>
    cases h2 : reg.findByChunkId c with
    | some e => left; rfl
    | none => right; rfl

/-- The inline-citation sequence is append-only under `add_citation`. -/
theorem add_citation_appends (reg : DocumentCitationRegistry) (c : ChunkCitation) :
    ∃ t, (reg.add_citation c).1.inline_citations = reg.inline_citations ++ t := by
  rcases add_citation_result reg c with heq | heq
  · exact ⟨[], by rw [heq]; simp⟩
  · exact ⟨[(reg.createNew c).2], by rw [heq]; exact createNew_fst_inline reg c⟩

/-- The numbering invariant: inline citation numbers are `1, 2, ..., N` in
order and the counter equals `N`. -/
def numbersGood (reg : DocumentCitationRegistry) : Prop :=
  reg.inline_citations.map (fun ic => ic.citation_number)
      = List.range' 1 reg.inline_citations.length
    ∧ reg.citation_counter = reg.inline_citations.length

theorem numbersGood_add (reg : DocumentCitationRegistry) (c : ChunkCitation)
    (h : numbersGood reg) : numbersGood ((reg.add_citation c).1) := by
  rcases add_citation_result reg c with heq | heq
  · rw [heq]; exact h
  · rw [heq]
    obtain ⟨hmap, hcount⟩ := h
    constructor
    · rw [createNew_fst_inline, List.map_append, List.length_append, hmap]
      simp [createNew_snd_num, hcount, List.range'_concat, Nat.add_comm]
    · rw [createNew_fst_counter, createNew_fst_inline, List.length_append, hcount]
      simp

theorem numbersGood_addAll (reg : DocumentCitationRegistry) (cs : List ChunkCitation)
    (h : numbersGood reg) : numbersGood (addAll reg cs) := by
  induction cs generalizing reg with
  | nil => exact h
  | cons c cs ih => exact ih _ (numbersGood_add reg c h)

/-! ### C2 — numbering invariant -/

/-- C2: starting from a freshly created registry, after any sequence of
`add_citation` calls the inline-citation numbers are exactly
`1, 2, ..., N` in sequence order (strictly increasing, no gaps, no reuse),
and any further `add_citation` call only appends to the sequence — existing
entries (and hence their numbers) are never removed or renumbered. -/
theorem c2_numbering_invariant (regs : Registries) (config : CitationConfig)
    (document_id session_id : String) (cs : List ChunkCitation) :
    ((addAll (create_registry regs config document_id session_id).2 cs).inline_citations.map
        (fun ic => ic.citation_number)
      = List.range' 1
          (addAll (create_registry regs config document_id session_id).2 cs).inline_citations.length)
    ∧ ∀ c, ∃ t,
        ((addAll (create_registry regs config document_id session_id).2 cs).add_citation c).1.inline_citations
          = (addAll (create_registry regs config document_id session_id).2 cs).inline_citations ++ t := by
  have hg : numbersGood (addAll (create_registry regs config document_id session_id).2 cs) :=
    numbersGood_addAll _ cs ⟨rfl, rfl⟩
  exact ⟨hg.1, fun c => add_citation_appends _ c⟩

/-! ### C1 — dedup by source+page -/

/-- C1, amended: two `add_citation` calls with equal
`(source_name, page_number)` return the same `InlineCitation` and leave the
registry unchanged at the second call, *provided* the first call's result
itself carries the shared source+page key — which holds whenever the first
call admits a new citation or is deduplicated by source+page.  (When the
first call is resolved by the `chunk_id` fallback to a citation of a
different source+page, the second call may resolve elsewhere; see the
counterexample.) -/
theorem c1_dedup_by_source_page (reg : DocumentCitationRegistry)
    (c1 c2 : ChunkCitation)
    (hpdf : c1.pdf_name = c2.pdf_name) (hpage : c1.page_number = c2.page_number)
    (hres : sourceKey ((reg.add_citation c1).2).chunk_citation = sourceKey c1) :
    (reg.add_citation c1).1.add_citation c2
      = ((reg.add_citation c1).1, (reg.add_citation c1).2) := by
  have hkey : sourceKey c2 = sourceKey c1 := by
    simp [sourceKey, hpdf, hpage]
  cases h1 : reg.findBySource c1 with
  | some e =>
    have hadd1 : reg.add_citation c1 = (reg, e) := by
      unfold DocumentCitationRegistry.add_citation; rw [h1]
    rw [hadd1]
    have hfind2 : reg.findBySource c2 = some e := by
      unfold DocumentCitationRegistry.findBySource at h1 ⊢
      simp only [hkey]
      exact h1
    show reg.add_citation c2 = (reg, e)
    unfold DocumentCitationRegistry.add_citation; rw [hfind2]
  | none =>
    cases h2 : reg.findByChunkId c1 with
    | some e =>
      -- impossible: the returned citation's key differs from `sourceKey c1`
      have hadd1 : reg.add_citation c1 = (reg, e) := by
        unfold DocumentCitationRegistry.add_citation; rw [h1, h2]
      rw [hadd1] at hres
      have hmem : e ∈ reg.inline_citations := by
        unfold DocumentCitationRegistry.findByChunkId at h2
        split at h2
        · exact List.mem_of_find?_eq_some h2
        · cases h2
      have hnot := List.find?_eq_none.mp h1 e hmem
      simp only [beq_iff_eq] at hnot
      exact absurd hres hnot
    | none =>
      have hadd1 : reg.add_citation c1 = reg.createNew c1 := by
        unfold DocumentCitationRegistry.add_citation; rw [h1, h2]
      rw [hadd1]
      have hnone : reg.inline_citations.find?
          (fun e => sourceKey e.chunk_citation == sourceKey c2) = none := by
        unfold DocumentCitationRegistry.findBySource at h1
        simp only [hkey]
        exact h1
      have hfind : (reg.createNew c1).1.findBySource c2 = some (reg.createNew c1).2 := by
        unfold DocumentCitationRegistry.findBySource
        rw [createNew_fst_inline, List.find?_append, hnone]
        simp [createNew_snd_cc, hkey]
      show (reg.createNew c1).1.add_citation c2 = ((reg.createNew c1).1, (reg.createNew c1).2)
      unfold DocumentCitationRegistry.add_citation
      rw [hfind]

/-- C1, witness: on a fresh registry with two chunks sharing
`("doc1.pdf", 3)` but with different chunk ids and excerpts, the second call
returns the first call's citation and changes nothing. -/
theorem c1_witness :
    (regFresh.add_citation (mkChunk "a" "doc1.pdf" 3)).1.add_citation
        (mkChunk "b" "doc1.pdf" 3)
      = ((regFresh.add_citation (mkChunk "a" "doc1.pdf" 3)).1,
         (regFresh.add_citation (mkChunk "a" "doc1.pdf" 3)).2) :=
  c1_dedup_by_source_page regFresh (mkChunk "a" "doc1.pdf" 3) (mkChunk "b" "doc1.pdf" 3)
    rfl rfl (by decide)

/-- The registry used by the C1 counterexample: chunk `"x"` was admitted for
`("a.pdf", 1)` and chunk `"y"` for `("c.pdf", 1)`. -/
def c1reg : DocumentCitationRegistry :=
  ((regFresh.add_citation (mkChunk "x" "a.pdf" 1)).1.add_citation
    (mkChunk "y" "c.pdf" 1)).1

/-- C1, counterexample: on `c1reg`, two consecutive `add_citation` calls with
the *same* `(source_name, page_number) = ("d.pdf", 9)` but chunk ids `"x"`
and `"y"` are both resolved by the `chunk_id` fallback — to citation `[1]`
and citation `[2]` respectively — so the second call does not return the
same `InlineCitation` as the first, refuting the claim as stated. -/
theorem c1_counterexample :
    (mkChunk "x" "d.pdf" 9).pdf_name = (mkChunk "y" "d.pdf" 9).pdf_name
    ∧ (mkChunk "x" "d.pdf" 9).page_number = (mkChunk "y" "d.pdf" 9).page_number
    ∧ (c1reg.add_citation (mkChunk "x" "d.pdf" 9)).2.citation_number = 1
    ∧ ((c1reg.add_citation (mkChunk "x" "d.pdf" 9)).1.add_citation
        (mkChunk "y" "d.pdf" 9)).2.citation_number = 2
    ∧ ¬ ((c1reg.add_citation (mkChunk "x" "d.pdf" 9)).1.add_citation
          (mkChunk "y" "d.pdf" 9)
        = ((c1reg.add_citation (mkChunk "x" "d.pdf" 9)).1,
           (c1reg.add_citation (mkChunk "x" "d.pdf" 9)).2)) := by
  refine ⟨rfl, rfl, by decide, by decide, by decide⟩

/-! ### C3 — chunk_id idempotence -/

/-- The registry used by the C3 counterexample: one citation admitted for
chunk `"w"` at `("a.pdf", 1)`. -/
def c3reg : DocumentCitationRegistry :=
  (regFresh.add_citation (mkChunk "w" "a.pdf" 1)).1

/-- C3, counterexample: on `c3reg`, a first call with chunk id `"x"` at
`("a.pdf", 1)` is absorbed by source+page dedup (returning citation `[1]`
without recording `"x"`), so an immediately following call with the *same*
chunk id `"x"` but source `("b.pdf", 2)` finds neither key and creates a new
citation `[2]` — the two calls do not return the same `InlineCitation`,
refuting the claim as stated. -/
theorem c3_counterexample :
    (mkChunk "x" "a.pdf" 1).chunk_id = (mkChunk "x" "b.pdf" 2).chunk_id
    ∧ (c3reg.add_citation (mkChunk "x" "a.pdf" 1)).2.citation_number = 1
    ∧ ((c3reg.add_citation (mkChunk "x" "a.pdf" 1)).1.add_citation
        (mkChunk "x" "b.pdf" 2)).2.citation_number = 2
    ∧ ((c3reg.add_citation (mkChunk "x" "a.pdf" 1)).1.add_citation
        (mkChunk "x" "b.pdf" 2)).2
      ≠ (c3reg.add_citation (mkChunk "x" "a.pdf" 1)).2 := by
  refine ⟨rfl, by decide, by decide, by decide⟩

/-- C3, amended: starting from a freshly created (empty) registry, two
`add_citation` calls whose `ChunkCitation`s share the same `chunk_id` return
the same `InlineCitation`, even when the second call's `source_name` and
`page_number` both differ — the first call records the `chunk_id` in the
membership index, so the second call is resolved either by source+page or by
the `chunk_id` fallback, in both cases to the first call's citation, leaving
the registry unchanged.  On a registry whose citation absorbed the first
call by source+page dedup the property can fail (see the counterexample). -/
theorem c3_chunk_id_idempotence (regs : Registries) (config : CitationConfig)
    (document_id session_id : String) (c1 c2 : ChunkCitation)
    (h : c1.chunk_id = c2.chunk_id) :
    ((create_registry regs config document_id session_id).2.add_citation c1).1.add_citation c2
      = (((create_registry regs config document_id session_id).2.add_citation c1).1,
         ((create_registry regs config document_id session_id).2.add_citation c1).2) := by
  have hadd1 : (create_registry regs config document_id session_id).2.add_citation c1
      = (create_registry regs config document_id session_id).2.createNew c1 := rfl
  rw [hadd1]
  by_cases hs : sourceKey c1 = sourceKey c2
  · have hfind : ((create_registry regs config document_id session_id).2.createNew c1).1.findBySource c2
        = some ((create_registry regs config document_id session_id).2.createNew c1).2 := by
      unfold DocumentCitationRegistry.findBySource
      simp [DocumentCitationRegistry.createNew, create_registry, List.find?_cons, hs]
    unfold DocumentCitationRegistry.add_citation
    rw [hfind]
  · have hfind : ((create_registry regs config document_id session_id).2.createNew c1).1.findBySource c2
        = none := by
      unfold DocumentCitationRegistry.findBySource
      simp [DocumentCitationRegistry.createNew, create_registry, List.find?_cons, hs]
    have hfind2 : ((create_registry regs config document_id session_id).2.createNew c1).1.findByChunkId c2
        = some ((create_registry regs config document_id session_id).2.createNew c1).2 := by
      unfold DocumentCitationRegistry.findByChunkId
      simp [DocumentCitationRegistry.createNew, create_registry, dictContains, dictInsert,
        List.find?_cons, h]
    unfold DocumentCitationRegistry.add_citation
    rw [hfind, hfind2]

/-- C3, witness: concrete instantiation of the amended theorem — same chunk
id `"x"`, sources `("a.pdf", 1)` then `("b.pdf", 2)`, starting empty. -/
theorem c3_witness :
    ((create_registry [] {} "doc-1" "sess-1").2.add_citation (mkChunk "x" "a.pdf" 1)).1.add_citation
        (mkChunk "x" "b.pdf" 2)
      = (((create_registry [] {} "doc-1" "sess-1").2.add_citation (mkChunk "x" "a.pdf" 1)).1,
         ((create_registry [] {} "doc-1" "sess-1").2.add_citation (mkChunk "x" "a.pdf" 1)).2) :=
  c3_chunk_id_idempotence [] {} "doc-1" "sess-1" (mkChunk "x" "a.pdf" 1)
    (mkChunk "x" "b.pdf" 2) rfl

/-! ### C7 — shape of the generated references section -/

/-- Plain concatenation of a list of strings. -/
def strConcat : List String → String
  | [] => ""
  | x :: rest => x ++ strConcat rest

theorem pyJoin_cons_eq (sep x : String) (xs : List String) :
    pyJoin sep (x :: xs) = x ++ strConcat (xs.map (fun y => sep ++ y)) := by
  induction xs generalizing x with
  | nil => simp [pyJoin, strConcat]
  | cons y rest ih => simp [pyJoin, strConcat, ih y, String.append_assoc]

/-- A registry reachable through the real lifecycle: created by
`create_registry`, then mutated by a sequence of `add_citation` calls. -/
def reachableRegistry (regs : Registries) (config : CitationConfig)
    (document_id session_id : String) (cs : List ChunkCitation) :
    DocumentCitationRegistry :=
  addAll (create_registry regs config document_id session_id).2 cs

theorem reachable_numbersGood (regs : Registries) (config : CitationConfig)
    (document_id session_id : String) (cs : List ChunkCitation) :
    numbersGood (reachableRegistry regs config document_id session_id cs) :=
  numbersGood_addAll _ cs ⟨rfl, rfl⟩

/-- C7: on any reachable registry, `generate_references_section` returns the
empty string exactly when there are no citations (no lone heading is ever
emitted); otherwise it returns the `## References` heading followed by one
line per `InlineCitation` in sequence order — each line starting with that
citation's number and containing the reference formatted by the style
dispatch on the citation's own `citation_style` — and the sequence order is
exactly ascending citation-number order `1, 2, ..., N`. -/
theorem c7_references_section_shape (regs : Registries) (config : CitationConfig)
    (document_id session_id : String) (cs : List ChunkCitation) (clock : Clock) :
    ((reachableRegistry regs config document_id session_id cs).generate_references_section clock = ""
        ↔ (reachableRegistry regs config document_id session_id cs).inline_citations = [])
    ∧ (reachableRegistry regs config document_id session_id cs).generate_references_section clock
        = (if (reachableRegistry regs config document_id session_id cs).inline_citations.isEmpty
           then ""
           else "## References\n"
             ++ strConcat
                  ((reachableRegistry regs config document_id session_id cs).inline_citations.map
                    (fun ic =>
                      "\n" ++ pyNatRepr ic.citation_number ++ ". "
                        ++ formatReference clock ic ++ "\n")))
    ∧ (reachableRegistry regs config document_id session_id cs).inline_citations.map
          (fun ic => ic.citation_number)
        = List.range' 1
            (reachableRegistry regs config document_id session_id cs).inline_citations.length := by
  set reg := reachableRegistry regs config document_id session_id cs with hreg
  have hshape : reg.generate_references_section clock
      = (if reg.inline_citations.isEmpty then ""
         else "## References\n"
           ++ strConcat (reg.inline_citations.map
                (fun ic => "\n" ++ pyNatRepr ic.citation_number ++ ". "
                  ++ formatReference clock ic ++ "\n"))) := by
    unfold DocumentCitationRegistry.generate_references_section
    by_cases he : reg.inline_citations.isEmpty
    · simp [he]
    · rw [if_neg he, if_neg he, pyJoin_cons_eq, List.map_map]
      have hfun : ((fun y => "\n" ++ y)
            ∘ fun ic : InlineCitation =>
                pyNatRepr ic.citation_number ++ ". " ++ formatReference clock ic ++ "\n")
          = (fun ic : InlineCitation =>
              "\n" ++ pyNatRepr ic.citation_number ++ ". " ++ formatReference clock ic ++ "\n") := by
        funext ic
        simp [Function.comp, String.append_assoc]
      rw [hfun]
  refine ⟨?_, hshape, (reachable_numbersGood regs config document_id session_id cs).1⟩
  constructor
  · intro hgen
    by_contra hne
    have he : reg.inline_citations.isEmpty = false := by
      cases hl : reg.inline_citations with
      | nil => exact absurd hl hne
      | cons a l => simp [hl]
    rw [hshape, he] at hgen
    simp only [Bool.false_eq_true, if_false] at hgen
    have : ("## References\n"
        ++ strConcat (reg.inline_citations.map
            (fun ic => "\n" ++ pyNatRepr ic.citation_number ++ ". "
              ++ formatReference clock ic ++ "\n"))).data = ("" : String).data := by
      rw [hgen]
    simp [String.data_append] at this
  · intro hl
    rw [hshape, hl]
    simp

/-! ### C10 — idempotence of `append_references_to_content` -/

theorem isPrefixOf_append_self (l t : List Char) : l.isPrefixOf (l ++ t) = true := by
  induction l with
  | nil => simp
  | cons c cs ih => simp [List.isPrefixOf_cons₂, ih]

theorem strContainsAux_of_suffix (needle l₁ l₂ : List Char)
    (h : needle.isPrefixOf l₂ = true) : strContainsAux needle (l₁ ++ l₂) = true := by
  induction l₁ with
  | nil =>
    cases l₂ with
    | nil =>
      cases needle with
      | nil => rfl
      | cons a as => simp at h
    | cons c rest => simp [strContainsAux, h]
  | cons c l₁ ih => simp [strContainsAux, ih]

/-- `"## References"` occurs in any string of the shape
`x ++ ("## References\n" ++ t)`. -/
theorem strContains_heading (x t : String) :
    strContains (x ++ ("## References\n" ++ t)) "## References" = true := by
  show strContainsAux ("## References").data ((x ++ ("## References\n" ++ t))).data = true
  rw [String.data_append, String.data_append]
  apply strContainsAux_of_suffix
  have hsplit : ("## References\n").data = ("## References").data ++ ['\n'] := by decide
  rw [hsplit, List.append_assoc]
  exact isPrefixOf_append_self _ _

/-- A non-empty tracker-level references section always starts with the
`## References` heading line. -/
theorem tracker_refs_heading (regs : Registries) (document_id : String) (clock : Clock)
    (h : tracker_generate_references_section regs document_id clock ≠ "") :
    ∃ t, tracker_generate_references_section regs document_id clock
      = "## References\n" ++ t := by
  unfold tracker_generate_references_section at h ⊢
  cases hg : get_registry regs document_id with
  | none => simp [hg] at h
  | some reg =>
    simp only [hg] at h ⊢
    by_cases ha : reg.auto_generate_references = true
    · simp only [ha, Bool.not_true, Bool.false_eq_true, if_false] at h ⊢
      unfold DocumentCitationRegistry.generate_references_section at h ⊢
      by_cases he : reg.inline_citations.isEmpty
      · simp [he] at h
      · rw [if_neg he, pyJoin_cons_eq]
        exact ⟨_, rfl⟩
    · simp only [Bool.not_eq_true] at ha
      simp [ha] at h

/-- C10 (implicit): appending the references section is idempotent — a second
`append_references_to_content` call returns its input unchanged — and the
content is returned completely unchanged whenever it already contains
`## References`, or the document has no registry, no citations, or
`auto_generate_references` disabled. -/
theorem c10_append_references_idempotent (regs : Registries)
    (content document_id : String) (clock : Clock) :
    append_references_to_content regs
        (append_references_to_content regs content document_id clock) document_id clock
      = append_references_to_content regs content document_id clock
    ∧ (strContains content "## References" = true →
        append_references_to_content regs content document_id clock = content)
    ∧ (get_registry regs document_id = none →
        append_references_to_content regs content document_id clock = content)
    ∧ (∀ reg, get_registry regs document_id = some reg → reg.inline_citations = [] →
        append_references_to_content regs content document_id clock = content)
    ∧ (∀ reg, get_registry regs document_id = some reg →
        reg.auto_generate_references = false →
        append_references_to_content regs content document_id clock = content) := by
  set R := tracker_generate_references_section regs document_id clock with hRdef
  have hkey : ∀ c : String, append_references_to_content regs c document_id clock
      = if R = "" then c
        else if strContains c "## References" then c
        else c ++ "\n\n" ++ R := fun c => rfl
  refine ⟨?_, ?_, ?_, ?_, ?_⟩
  · by_cases hR : R = ""
    · rw [hkey, hkey]
      simp [hR]
    · rw [hkey, hkey, if_neg hR, if_neg hR]
      by_cases hc : strContains content "## References" = true
      · simp [hc]
      · simp only [hc, Bool.false_eq_true, if_false]
        obtain ⟨t, ht⟩ := tracker_refs_heading regs document_id clock hR
        have hcontains : strContains (content ++ "\n\n" ++ R) "## References" = true := by
          rw [hRdef, ht]
          exact strContains_heading (content ++ "\n\n") t
        simp [hcontains]
  · intro hc
    rw [hkey]
    by_cases hR : R = ""
    · simp [hR]
    · simp [hR, hc]
  · intro hn
    have hR : R = "" := by
      rw [hRdef]
      unfold tracker_generate_references_section
      rw [hn]
    rw [hkey]
    simp [hR]
  · intro reg hg hl
    have hR : R = "" := by
      rw [hRdef]
      unfold tracker_generate_references_section
      rw [hg]
      unfold DocumentCitationRegistry.generate_references_section
      simp [hl]
    rw [hkey]
    simp [hR]
  · intro reg hg hauto
    have hR : R = "" := by
      rw [hRdef]
      unfold tracker_generate_references_section
      rw [hg]
      simp [hauto]
    rw [hkey]
    simp [hR]

/-- C10, witness: with no registry stored, appending references leaves the
content untouched. -/
theorem c10_witness :
    append_references_to_content [] "Body text." "doc-1"
        ⟨"October 12, 2026", "12 Oct 2026"⟩ = "Body text." :=
  (c10_append_references_idempotent [] "Body text." "doc-1"
    ⟨"October 12, 2026", "12 Oct 2026"⟩).2.2.1 rfl

/-! ### C9 — totality of chunk extraction -/

theorem exceptBind_ok {ε α β : Type} (a : α) (f : α → Except ε β) :
    (Except.ok a >>= f : Except ε β) = f a := rfl

theorem exceptPure_eq {ε α : Type} (a : α) : (pure a : Except ε α) = Except.ok a := rfl

/-- Well-formed value for an `Optional[str]` pydantic field. -/
def looseStrOK : Option PyVal → Bool
  | none => true
  | some PyVal.pynone => true
  | some (PyVal.str _) => true
  | _ => false

/-- Well-formed value under the `'source'` key (absent, or a string). -/
def sourceValOK : Option PyVal → Bool
  | none => true
  | some (PyVal.str _) => true
  | _ => false

/-- Well-formed value under the `'page'` key: absent, an `int ≥ 1`, or a
string whose first digit run (if any) is `≥ 1`. -/
def pageValOK : Option PyVal → Bool
  | none => true
  | some (PyVal.int n) => decide (1 ≤ n)
  | some (PyVal.str s) =>
    (match firstDigitRun s.toList with
     | none => true
     | some n => decide (1 ≤ n))
  | _ => false

/-- Well-formed value under the `'authors'` key. -/
def authorsValOK : Option PyVal → Bool
  | none => true
  | some PyVal.pynone => true
  | some (PyVal.str _) => true
  | some (PyVal.listStr _) => true
  | _ => false

/-- Well-formed value under the `'publication_date'` key. -/
def dateValOK : Option PyVal → Bool
  | none => true
  | some PyVal.pynone => true
  | some (PyVal.date _) => true
  | _ => false

/-- All metadata fields read by `extract_citation_from_chunk` are
well-typed (and any provided page resolves to at least 1). -/
def WellFormedMeta (md : Metadata) : Bool :=
  sourceValOK (mdGet md "source") && pageValOK (mdGet md "page")
    && looseStrOK (pyOrVal (mdGet md "section") (mdGet md "chapter"))
    && authorsValOK (mdGet md "authors")
    && looseStrOK (pyOrVal (mdGet md "url") (mdGet md "file_path"))
    && dateValOK (mdGet md "publication_date")
    && looseStrOK (mdGet md "publisher")
    && looseStrOK (mdGet md "doi")
    && looseStrOK (mdGet md "isbn")
    && looseStrOK (mdGet md "journal")
    && looseStrOK (mdGet md "volume")
    && looseStrOK (mdGet md "issue")

theorem asStr_source_ok (v : Option PyVal) (h : sourceValOK v = true) :
    ∃ s, asStr "pdf_name" (some (v.getD (PyVal.str "Unknown Source"))) = Except.ok s
      ∧ (v = none → s = "Unknown Source") := by
  cases v with
  | none => exact ⟨"Unknown Source", rfl, fun _ => rfl⟩
  | some pv =>
    cases pv with
    | str s => exact ⟨s, rfl, fun h' => nomatch h'⟩
    | pynone => simp [sourceValOK] at h
    | int n => simp [sourceValOK] at h
    | listStr l => simp [sourceValOK] at h
    | date y => simp [sourceValOK] at h

theorem asPageNumber_ok (v : Option PyVal) (h : pageValOK v = true) :
    ∃ n, asPageNumber (some (convertPageVal (v.getD (PyVal.int 1)))) = Except.ok n
      ∧ (v = none → n = 1)
      ∧ (∀ s, v = some (PyVal.str s) → firstDigitRun s.toList = none → n = 1) := by
  cases v with
  | none =>
    refine ⟨1, rfl, fun _ => rfl, ?_⟩
    rintro s ⟨⟩
  | some pv =>
    cases pv with
    | int n =>
      simp only [pageValOK, decide_eq_true_eq] at h
      refine ⟨n, ?_, by rintro ⟨⟩, by rintro s ⟨⟩⟩
      have hred : asPageNumber (some (convertPageVal ((some (PyVal.int n)).getD (PyVal.int 1))))
          = if n < 1 then Except.error "page_number: input should be >= 1" else Except.ok n := rfl
      rw [hred, if_neg (by omega)]
    | str s =>
      have hred : asPageNumber (some (convertPageVal ((some (PyVal.str s)).getD (PyVal.int 1))))
          = asPageNumber (some (PyVal.int
              (match firstDigitRun s.toList with
               | some n => (n : Int)
               | none => 1))) := rfl
      cases hf : firstDigitRun s.toList with
      | none =>
        refine ⟨1, ?_, by rintro ⟨⟩, fun s' h' _ => rfl⟩
        rw [hred, hf]
        rfl
      | some k =>
        simp only [pageValOK, hf, decide_eq_true_eq] at h
        refine ⟨(k : Int), ?_, by rintro ⟨⟩, ?_⟩
        · rw [hred, hf]
          have hred2 : asPageNumber (some (PyVal.int (k : Int)))
              = if (k : Int) < 1 then Except.error "page_number: input should be >= 1"
                else Except.ok (k : Int) := rfl
          rw [hred2, if_neg (by omega)]
        · intro s' h' hnone
          injection h' with h''
          cases h''
          rw [hf] at hnone
          exact absurd hnone (by simp)
    | pynone => simp [pageValOK] at h
    | listStr l => simp [pageValOK] at h
    | date y => simp [pageValOK] at h

theorem asOptStr_ok (field : String) (v : Option PyVal) (h : looseStrOK v = true) :
    ∃ o, asOptStr field v = Except.ok o := by
  cases v with
  | none => exact ⟨none, rfl⟩
  | some pv =>
    cases pv with
    | pynone => exact ⟨none, rfl⟩
    | str s => exact ⟨some s, rfl⟩
    | int n => simp [looseStrOK] at h
    | listStr l => simp [looseStrOK] at h
    | date y => simp [looseStrOK] at h

theorem asAuthors_ok (v : Option PyVal) (h : authorsValOK v = true) :
    ∃ l, asAuthors (some (convertAuthorsVal (v.getD (PyVal.listStr [])))) = Except.ok l
      ∧ (∀ s, v = some (PyVal.str s) → l = [s]) := by
  cases v with
  | none => exact ⟨[], rfl, fun s h' => nomatch h'⟩
  | some pv =>
    cases pv with
    | pynone => exact ⟨[], rfl, fun s h' => nomatch h'⟩
    | str s =>
      refine ⟨[s], rfl, ?_⟩
      intro s' h'
      injection h' with h''
      cases h''
      rfl
    | listStr l => exact ⟨l, rfl, fun s h' => nomatch h'⟩
    | int n => simp [authorsValOK] at h
    | date y => simp [authorsValOK] at h

theorem asOptDate_ok (v : Option PyVal) (h : dateValOK v = true) :
    ∃ o, asOptDate v = Except.ok o := by
  cases v with
  | none => exact ⟨none, rfl⟩
  | some pv =>
    cases pv with
    | pynone => exact ⟨none, rfl⟩
    | date y => exact ⟨some y, rfl⟩
    | str s => simp [dateValOK] at h
    | int n => simp [dateValOK] at h
    | listStr l => simp [dateValOK] at h

/-- C9, counterexample: a metadata mapping carrying `page = 0` (an `int`)
makes the pydantic `ChunkCitation` construction fail its `ge=1` validation —
`extract_citation_from_chunk` raises instead of returning a citation,
refuting the claim that extraction is total for arbitrary values. -/
theorem c9_counterexample :
    extract_citation_from_chunk {} "some chunk content" [("page", PyVal.int 0)] "chunk-1"
      = Except.error "page_number: input should be >= 1" := rfl

/-- C9, amended: for every content string and every *well-typed* metadata
mapping whose page (when provided) resolves to at least 1,
`extract_citation_from_chunk` returns a `ChunkCitation` without raising; a
missing page yields `page_number = 1` (as does a string page with no
digits), a missing source yields the `"Unknown Source"` placeholder, and a
string-valued `'authors'` entry is wrapped into a one-element list.  For
ill-typed values, or pages below 1, pydantic validation raises (see the
counterexample). -/
theorem c9_extraction_total (config : CitationConfig) (chunk_content : String)
    (chunk_metadata : Metadata) (chunk_id : String)
    (h : WellFormedMeta chunk_metadata = true) :
    ∃ c, extract_citation_from_chunk config chunk_content chunk_metadata chunk_id
        = Except.ok c
      ∧ (mdGet chunk_metadata "page" = none → c.page_number = 1)
      ∧ (∀ s, mdGet chunk_metadata "page" = some (PyVal.str s) →
          firstDigitRun s.toList = none → c.page_number = 1)
      ∧ (mdGet chunk_metadata "source" = none → c.pdf_name = "Unknown Source")
      ∧ (∀ s, mdGet chunk_metadata "authors" = some (PyVal.str s) → c.authors = [s]) := by
  simp only [WellFormedMeta, Bool.and_eq_true] at h
  obtain ⟨⟨⟨⟨⟨⟨⟨⟨⟨⟨⟨h1, h2⟩, h3⟩, h4⟩, h5⟩, h6⟩, h7⟩, h8⟩, h9⟩, h10⟩, h11⟩, h12⟩ := h
  obtain ⟨pdfv, hpdf, hpdfnone⟩ := asStr_source_ok _ h1
  obtain ⟨pagev, hpage, hpagenone, hpagestr⟩ := asPageNumber_ok _ h2
  obtain ⟨sectv, hsect⟩ := asOptStr_ok "section" _ h3
  obtain ⟨authv, hauth, hauthstr⟩ := asAuthors_ok _ h4
  obtain ⟨linkv, hlink⟩ := asOptStr_ok "external_link" _ h5
  obtain ⟨datev, hdate⟩ := asOptDate_ok _ h6
  obtain ⟨pubv, hpub⟩ := asOptStr_ok "publisher" _ h7
  obtain ⟨doiv, hdoi⟩ := asOptStr_ok "doi" _ h8
  obtain ⟨isbnv, hisbn⟩ := asOptStr_ok "isbn" _ h9
  obtain ⟨journv, hjourn⟩ := asOptStr_ok "journal" _ h10
  obtain ⟨volv, hvol⟩ := asOptStr_ok "volume" _ h11
  obtain ⟨issuev, hissue⟩ := asOptStr_ok "issue" _ h12
  refine ⟨{ chunk_id := chunk_id
            pdf_name := pdfv
            page_number := pagev
            section_ := sectv
            text_excerpt :=
              if chunk_content.length > 150 then (chunk_content.toList.take 150).asString ++ "..."
              else chunk_content
            citation_style := config.citation_style
            external_link := linkv
            authors := authv
            publication_date := datev
            publisher := pubv
            doi := doiv
            isbn := isbnv
            journal := journv
            volume := volv
            issue := issuev }, ?_, ?_, ?_, ?_, ?_⟩
  · simp only [extract_citation_from_chunk, mdGetD, hpdf, hpage, hsect, hauth, hlink,
      hdate, hpub, hdoi, hisbn, hjourn, hvol, hissue, exceptBind_ok, exceptPure_eq]
  · intro hn
    exact hpagenone hn
  · intro s hs hnone
    exact hpagestr s hs hnone
  · intro hn
    exact hpdfnone hn
  · intro s hs
    exact hauthstr s hs

/-! ### C8 — JSON export round trip: number lemmas -/

/-- Does the input start with a decimal digit?  (Greedy number parsing stops
exactly when this is false.) -/
def headIsDigit : List Char → Bool
  | [] => false
  | c :: _ => c.isDigit

theorem digitChar_isDigit (n : Nat) (h : n < 10) : (digitChar n).isDigit = true := by
  revert h
  revert n
  decide

theorem digitChar_val (n : Nat) (h : n < 10) : (digitChar n).toNat - 48 = n := by
  revert h
  revert n
  decide

theorem grabDigits_stop (n : Nat) (rest : List Char) (h : headIsDigit rest = false) :
    grabDigits n rest = (n, rest) := by
  cases rest with
  | nil => rfl
  | cons c r =>
    simp only [headIsDigit] at h
    simp [grabDigits, h]

theorem grabDigits_natDigitsAux (fuel : Nat) :
    ∀ (n acc : Nat) (rest : List Char), n < 10 ^ fuel →
      grabDigits acc (natDigitsAux fuel n ++ rest)
        = grabDigits (acc * 10 ^ (natDigitsAux fuel n).length + n) rest := by
  induction fuel with
  | zero =>
    intro n acc rest h
    have hn : n = 0 := by simpa using h
    subst hn
    simp [natDigitsAux]
  | succ fuel ih =>
    intro n acc rest h
    by_cases h10 : n < 10
    · simp only [natDigitsAux, if_pos h10, List.singleton_append, List.length_cons,
        List.length_nil]
      simp only [grabDigits, digitChar_isDigit n h10, if_true, digitChar_val n h10]
      norm_num
    · simp only [natDigitsAux, if_neg h10, List.append_assoc, List.singleton_append]
      have hdiv : n / 10 < 10 ^ fuel := by
        rw [Nat.div_lt_iff_lt_mul (by norm_num)]
        calc n < 10 ^ (fuel + 1) := h
        _ = 10 ^ fuel * 10 := by rw [Nat.pow_succ]
      rw [ih (n / 10) acc (digitChar (n % 10) :: rest) hdiv]
      have hm : n % 10 < 10 := Nat.mod_lt _ (by norm_num)
      simp only [grabDigits, digitChar_isDigit _ hm, if_true, digitChar_val _ hm,
        List.length_append, List.length_cons, List.length_nil]
      congr 1
      have hq : acc * 10 ^ (natDigitsAux fuel (n / 10)).length * 10
          = acc * 10 ^ ((natDigitsAux fuel (n / 10)).length + (0 + 1)) := by
        rw [Nat.pow_succ]
        ring
      rw [Nat.add_mul, ← hq]
      have hdm := Nat.div_add_mod n 10
      have := Nat.mul_comm (n / 10) 10
      omega

theorem natDigitsAux_head (fuel : Nat) :
    ∀ n : Nat, 1 ≤ fuel → n < 10 ^ fuel →
      ∃ c t, natDigitsAux fuel n = c :: t ∧ c.isDigit = true := by
  induction fuel with
  | zero => intro n h; omega
  | succ fuel ih =>
    intro n _ h
    by_cases h10 : n < 10
    · exact ⟨digitChar n, [], by simp [natDigitsAux, if_pos h10], digitChar_isDigit n h10⟩
    · have hdiv : n / 10 < 10 ^ fuel := by
        rw [Nat.div_lt_iff_lt_mul (by norm_num)]
        calc n < 10 ^ (fuel + 1) := h
        _ = 10 ^ fuel * 10 := by rw [Nat.pow_succ]
      have hfuel : 1 ≤ fuel := by
        by_contra hc
        have : fuel = 0 := by omega
        subst this
        simp at hdiv
        omega
      obtain ⟨c, t, hct, hcd⟩ := ih (n / 10) hfuel hdiv
      exact ⟨c, t ++ [digitChar (n % 10)],
        by simp [natDigitsAux, if_neg h10, hct], hcd⟩

theorem nat_lt_pow_succ (n : Nat) : n < 10 ^ (n + 1) :=
  lt_of_lt_of_le (Nat.lt_pow_self (by norm_num) n)
    (Nat.pow_le_pow_right (by norm_num) (by omega))

theorem parseNat_natDigits (n : Nat) (rest : List Char) (h : headIsDigit rest = false) :
    parseNat (natDigits n ++ rest) = some (n, rest) := by
  obtain ⟨c, t, hct, hcd⟩ := natDigitsAux_head (n + 1) n (by omega) (nat_lt_pow_succ n)
  unfold natDigits
  rw [hct, List.cons_append]
  simp only [parseNat, hcd, if_true]
  rw [← List.cons_append, ← hct,
    grabDigits_natDigitsAux (n + 1) n 0 rest (nat_lt_pow_succ n)]
  simp only [Nat.zero_mul, Nat.zero_add]
  rw [grabDigits_stop n rest h]

theorem isDigit_ne_minus (c : Char) (h : c.isDigit = true) : ¬c = '-' := by
  intro hc
  subst hc
  simp at h

theorem parseInt_dumpsInt (i : Int) (rest : List Char) (h : headIsDigit rest = false) :
    parseInt (dumpsInt i ++ rest) = some (i, rest) := by
  unfold dumpsInt
  by_cases hneg : i < 0
  · rw [if_pos hneg, List.cons_append]
    simp only [parseInt, if_pos rfl]
    rw [parseNat_natDigits _ _ h]
    have hval : -((i.natAbs : Nat) : Int) = i := by omega
    simp only [Option.map_some', hval, if_true]
  · rw [if_neg hneg]
    obtain ⟨c, t, hct, hcd⟩ := natDigitsAux_head (i.toNat + 1) i.toNat (by omega)
      (nat_lt_pow_succ i.toNat)
    unfold natDigits
    rw [hct, List.cons_append]
    simp only [parseInt, isDigit_ne_minus c hcd, if_false]
    rw [← List.cons_append, ← hct]
    have := parseNat_natDigits i.toNat rest h
    unfold natDigits at this
    rw [this]
    have hval : ((i.toNat : Nat) : Int) = i := by omega
    simp only [Option.map_some', hval]

/-! ### C8 — string escaping round trip -/

theorem parseHexDigit_hexDigitChar (n : Nat) (h : n < 16) :
    parseHexDigit (hexDigitChar n) = some n := by
  revert h
  revert n
  decide

theorem parseHex4_hex4 (v : Nat) (h : v < 65536) :
    parseHex4 (hexDigitChar (v / 4096 % 16)) (hexDigitChar (v / 256 % 16))
        (hexDigitChar (v / 16 % 16)) (hexDigitChar (v % 16)) = some v := by
  unfold parseHex4
  rw [parseHexDigit_hexDigitChar _ (Nat.mod_lt _ (by norm_num)),
    parseHexDigit_hexDigitChar _ (Nat.mod_lt _ (by norm_num)),
    parseHexDigit_hexDigitChar _ (Nat.mod_lt _ (by norm_num)),
    parseHexDigit_hexDigitChar _ (Nat.mod_lt _ (by norm_num))]
  show some ((((v / 4096 % 16) * 16 + v / 256 % 16) * 16 + v / 16 % 16) * 16 + v % 16)
    = some v
  congr 1
  omega

/-- The validity range of a `Char`'s code point, in `Nat` form. -/
theorem char_valid_nat (c : Char) :
    c.toNat < 0xD800 ∨ (0xDFFF < c.toNat ∧ c.toNat < 0x110000) := c.valid

theorem parseStrBody_backslash_u (a b c3 d : Char) (tail : List Char) (fuel : Nat) :
    parseStrBody (fuel + 1) ('\\' :: 'u' :: a :: b :: c3 :: d :: tail)
      = (match parseHex4 a b c3 d with
         | none => none
         | some v =>
           if 0xD800 ≤ v ∧ v < 0xDC00 then
             match tail with
             | bs :: u2 :: a2 :: b2 :: c4 :: d2 :: rest4 =>
               if bs = '\\' ∧ u2 = 'u' then
                 (match parseHex4 a2 b2 c4 d2 with
                  | none => none
                  | some w =>
                    if 0xDC00 ≤ w ∧ w < 0xE000 then
                      consParsed
                        (Char.ofNat (0x10000 + (v - 0xD800) * 0x400 + (w - 0xDC00)))
                        (parseStrBody fuel rest4)
                    else none)
               else none
             | _ => none
           else if 0xDC00 ≤ v ∧ v < 0xE000 then none
           else consParsed (Char.ofNat v) (parseStrBody fuel tail)) := rfl

theorem parseStrBody_u_nonsurrogate (a b c3 d : Char) (v : Nat) (tail : List Char)
    (fuel : Nat) (hv : parseHex4 a b c3 d = some v)
    (hlo : ¬(0xD800 ≤ v ∧ v < 0xDC00)) (hhi : ¬(0xDC00 ≤ v ∧ v < 0xE000)) :
    parseStrBody (fuel + 1) ('\\' :: 'u' :: a :: b :: c3 :: d :: tail)
      = consParsed (Char.ofNat v) (parseStrBody fuel tail) := by
  rw [parseStrBody_backslash_u, hv]
  simp only [hlo, hhi, if_false]

theorem parseStrBody_u_surrogatePair (a b c3 d a2 b2 c4 d2 : Char) (v w : Nat)
    (tail : List Char) (fuel : Nat)
    (hv : parseHex4 a b c3 d = some v) (hw : parseHex4 a2 b2 c4 d2 = some w)
    (hvr : 0xD800 ≤ v ∧ v < 0xDC00) (hwr : 0xDC00 ≤ w ∧ w < 0xE000) :
    parseStrBody (fuel + 1)
        ('\\' :: 'u' :: a :: b :: c3 :: d :: '\\' :: 'u' :: a2 :: b2 :: c4 :: d2 :: tail)
      = consParsed (Char.ofNat (0x10000 + (v - 0xD800) * 0x400 + (w - 0xDC00)))
          (parseStrBody fuel tail) := by
  rw [parseStrBody_backslash_u, hv]
  simp only [hvr, if_true]
  rw [hw]
  simp only [hwr, if_true, and_self, ite_true]

theorem parseStrBody_plain (c : Char) (tail : List Char) (fuel : Nat)
    (h1 : ¬c = '"') (h2 : ¬c = '\\') :
    parseStrBody (fuel + 1) (c :: tail) = consParsed c (parseStrBody fuel tail) := by
  simp only [parseStrBody]
  rw [if_neg h1, if_neg h2]

set_option maxHeartbeats 1000000 in
theorem parseStrBody_escapeChar (c : Char) (rest : List Char) (fuel : Nat) :
    parseStrBody (fuel + 1) (escapeChar c ++ rest) = consParsed c (parseStrBody fuel rest) := by
  by_cases h1 : c = '"'
  · subst h1; rfl
  by_cases h2 : c = '\\'
  · subst h2; rfl
  by_cases h3 : c = '\n'
  · subst h3; rfl
  by_cases h4 : c = '\r'
  · subst h4; rfl
  by_cases h5 : c = '\t'
  · subst h5; rfl
  by_cases h6 : c = '\x08'
  · subst h6; rfl
  by_cases h7 : c = '\x0c'
  · subst h7; rfl
  have hval := char_valid_nat c
  by_cases h8 : c.toNat < 0x20
  · have hesc : escapeChar c = '\\' :: 'u' :: hex4 c.toNat := by
      unfold escapeChar
      rw [if_neg h1, if_neg h2, if_neg h3, if_neg h4, if_neg h5, if_neg h6, if_neg h7,
        if_pos h8]
    rw [hesc]
    simp only [hex4, List.cons_append, List.nil_append]
    rw [parseStrBody_u_nonsurrogate _ _ _ _ c.toNat rest fuel
      (parseHex4_hex4 c.toNat (by omega)) (by omega) (by omega), Char.ofNat_toNat]
  by_cases h9 : c.toNat < 0x7f
  · have hesc : escapeChar c = [c] := by
      unfold escapeChar
      rw [if_neg h1, if_neg h2, if_neg h3, if_neg h4, if_neg h5, if_neg h6, if_neg h7,
        if_neg h8, if_pos h9]
    rw [hesc, List.singleton_append, parseStrBody_plain c rest fuel h1 h2]
  by_cases h10 : c.toNat < 0x10000
  · have hesc : escapeChar c = '\\' :: 'u' :: hex4 c.toNat := by
      unfold escapeChar
      rw [if_neg h1, if_neg h2, if_neg h3, if_neg h4, if_neg h5, if_neg h6, if_neg h7,
        if_neg h8, if_neg h9, if_pos h10]
    rw [hesc]
    simp only [hex4, List.cons_append, List.nil_append]
    rw [parseStrBody_u_nonsurrogate _ _ _ _ c.toNat rest fuel
      (parseHex4_hex4 c.toNat (by omega)) (by omega) (by omega), Char.ofNat_toNat]
  · have hesc : escapeChar c
        = ('\\' :: 'u' :: hex4 (0xD800 + (c.toNat - 0x10000) / 0x400))
          ++ ('\\' :: 'u' :: hex4 (0xDC00 + (c.toNat - 0x10000) % 0x400)) := by
      unfold escapeChar
      rw [if_neg h1, if_neg h2, if_neg h3, if_neg h4, if_neg h5, if_neg h6, if_neg h7,
        if_neg h8, if_neg h9, if_neg h10]
    rw [hesc]
    simp only [hex4, List.cons_append, List.nil_append, List.append_assoc]
    have hdivlt : (c.toNat - 0x10000) / 0x400 < 0x400 := by omega
    rw [parseStrBody_u_surrogatePair _ _ _ _ _ _ _ _
      (0xD800 + (c.toNat - 0x10000) / 0x400) (0xDC00 + (c.toNat - 0x10000) % 0x400)
      rest fuel
      (parseHex4_hex4 _ (by omega)) (parseHex4_hex4 _ (by omega))
      (by omega) (by omega)]
    have harith : 0x10000 + (0xD800 + (c.toNat - 0x10000) / 0x400 - 0xD800) * 0x400
        + (0xDC00 + (c.toNat - 0x10000) % 0x400 - 0xDC00) = c.toNat := by
      have := Nat.div_add_mod (c.toNat - 0x10000) 0x400
      omega
    rw [harith, Char.ofNat_toNat]

set_option maxHeartbeats 2000000 in
theorem escapeChar_length_pos (c : Char) : 1 ≤ (escapeChar c).length := by
  unfold escapeChar
  split_ifs <;> simp [hex4]

theorem escapeList_length_ge (s : List Char) : s.length ≤ (escapeList s).length := by
  induction s with
  | nil => simp [escapeList]
  | cons c rest ih =>
    have := escapeChar_length_pos c
    simp only [escapeList, List.length_cons, List.length_append]
    omega

theorem parseStrBody_escapeList (s : List Char) :
    ∀ (rest : List Char) (fuel : Nat), s.length + 1 ≤ fuel →
      parseStrBody fuel (escapeList s ++ ('"' :: rest)) = some (s, rest) := by
  induction s with
  | nil =>
    intro rest fuel h
    obtain ⟨f, rfl⟩ : ∃ f, fuel = f + 1 := ⟨fuel - 1, by omega⟩
    rfl
  | cons c s ih =>
    intro rest fuel h
    obtain ⟨f, rfl⟩ : ∃ f, fuel = f + 1 := ⟨fuel - 1, by omega⟩
    simp only [escapeList, List.append_assoc]
    rw [parseStrBody_escapeChar,
      ih rest f (by simp only [List.length_cons] at h; omega)]
    rfl

theorem asString_toList (s : String) : s.toList.asString = s := rfl

theorem parseJsonString_dumpsStr (s : String) (rest : List Char) :
    parseJsonString (dumpsStr s ++ rest) = some (s, rest) := by
  unfold dumpsStr parseJsonString
  simp only [List.cons_append, List.append_assoc, List.singleton_append, List.nil_append]
  simp only [if_true]
  rw [parseStrBody_escapeList s.toList rest _ ?hfuel]
  · simp only [Option.map_some', asString_toList]
  case hfuel =>
    have := escapeList_length_ge s.toList
    simp only [List.length_append, List.length_cons]
    omega

/-! ### C8 — record and payload round trip -/

theorem expectLit_append (lit rest : List Char) : expectLit lit (lit ++ rest) = some rest := by
  induction lit with
  | nil => rfl
  | cons l ls ih =>
    simp only [List.cons_append, expectLit, if_pos rfl]
    exact ih

theorem parseRecord_dumpsRecord (r : ExportRecord) (rest : List Char) :
    parseRecord (dumpsRecord r ++ rest) = some (r, rest) := by
  unfold parseRecord dumpsRecord
  simp only [List.append_assoc]
  rw [expectLit_append]
  simp only [Option.some_bind]
  rw [parseNat_natDigits _ _ (by rfl)]
  simp only [Option.some_bind]
  rw [expectLit_append]
  simp only [Option.some_bind]
  rw [parseJsonString_dumpsStr]
  simp only [Option.some_bind]
  rw [expectLit_append]
  simp only [Option.some_bind]
  rw [parseJsonString_dumpsStr]
  simp only [Option.some_bind]
  rw [expectLit_append]
  simp only [Option.some_bind]
  rw [parseInt_dumpsInt _ _ (by rfl)]
  simp only [Option.some_bind]
  rw [show (['\x7d'] : List Char) ++ rest = ('\x7d' :: rest) from rfl]
  rw [show expectLit ['\x7d'] ('\x7d' :: rest) = some rest from rfl]
  simp only [Option.map_some']

theorem parseRecordsLoop_round (rs : List ExportRecord) :
    ∀ (tail : List Char) (fuel : Nat), rs ≠ [] → rs.length ≤ fuel →
      parseRecordsLoop fuel (joinListSep (", ").toList (rs.map dumpsRecord) ++ (']' :: tail))
        = some (rs, tail) := by
  induction rs with
  | nil => intro tail fuel hne; exact absurd rfl hne
  | cons r rs ih =>
    intro tail fuel _ hf
    obtain ⟨f, rfl⟩ : ∃ f, fuel = f + 1 :=
      ⟨fuel - 1, by simp only [List.length_cons] at hf; omega⟩
    cases rs with
    | nil =>
      simp only [List.map_cons, List.map_nil, joinListSep]
      unfold parseRecordsLoop
      rw [parseRecord_dumpsRecord]
      simp only [Option.some_bind]
    | cons r2 rs2 =>
      simp only [List.map_cons, joinListSep, List.append_assoc]
      unfold parseRecordsLoop
      rw [parseRecord_dumpsRecord]
      simp only [Option.some_bind]
      have hb : ∀ Y : List Char, (", ").toList ++ Y = ',' :: ' ' :: Y := fun _ => rfl
      rw [hb]
      show (parseRecordsLoop f
          (joinListSep (", ").toList (dumpsRecord r2 :: rs2.map dumpsRecord) ++ (']' :: tail))).map
            (fun p => (r :: p.1, p.2))
        = some (r :: r2 :: rs2, tail)
      have hrec := ih tail f (by simp) (by simp only [List.length_cons] at hf ⊢; omega)
      simp only [List.map_cons] at hrec
      rw [hrec]
      simp only [Option.map_some']

theorem dumpsRecord_head (r : ExportRecord) : ∃ t, dumpsRecord r = '\x7b' :: t :=
  ⟨_, rfl⟩

theorem joinRecords_head (r : ExportRecord) (rs : List ExportRecord) :
    ∃ t, joinListSep (", ").toList ((r :: rs).map dumpsRecord) = '\x7b' :: t := by
  cases rs with
  | nil => exact ⟨_, rfl⟩
  | cons r2 rs2 => exact ⟨_, rfl⟩

theorem joinRecords_length (rs : List ExportRecord) :
    rs.length ≤ (joinListSep (", ").toList (rs.map dumpsRecord)).length + 1 := by
  induction rs with
  | nil => simp
  | cons r rs ih =>
    cases rs with
    | nil => simp [joinListSep]
    | cons r2 rs2 =>
      have hsep : ((", ").toList).length = 2 := rfl
      simp only [List.map_cons, joinListSep, List.length_cons, List.length_append] at ih ⊢
      omega

theorem parseRecords_dumpsRecords (rs : List ExportRecord) (tail : List Char) :
    parseRecords (dumpsRecords rs ++ tail) = some (rs, tail) := by
  cases rs with
  | nil => rfl
  | cons r rs' =>
    obtain ⟨t, ht⟩ := joinRecords_head r rs'
    unfold dumpsRecords parseRecords
    simp only [List.cons_append, List.append_assoc, List.singleton_append]
    rw [ht]
    simp only [List.cons_append]
    show parseRecordsLoop (('\x7b' :: (t ++ ']' :: tail)).length + 1)
        ('\x7b' :: (t ++ ']' :: tail)) = some (r :: rs', tail)
    rw [show ('\x7b' :: (t ++ ']' :: tail)) = ('\x7b' :: t) ++ (']' :: tail) from rfl, ← ht]
    apply parseRecordsLoop_round
    · simp
    · have h1 := joinRecords_length (r :: rs')
      simp only [List.length_append, List.length_cons] at h1 ⊢
      omega

theorem toList_asString (l : List Char) : (List.asString l).toList = l := rfl

/-- C8: for every registry, exporting with format `"json"` and re-parsing
the result with an independent JSON parser recovers the document id and
exactly one record per `InlineCitation`, in the same order, whose
`(citation_number, source, page)` triples equal the registry's own
`(citation_number, pdf_name, page_number)` data. -/
theorem c8_json_round_trip (reg : DocumentCitationRegistry) :
    parseExport (export_citations_json reg) = some (reg.document_id, exportRecords reg)
    ∧ (exportRecords reg).map (fun r => (r.citation_number, r.source, r.page))
        = reg.inline_citations.map
            (fun ic => (ic.citation_number, ic.chunk_citation.pdf_name,
              ic.chunk_citation.page_number))
    ∧ (exportRecords reg).length = reg.inline_citations.length := by
  refine ⟨?_, ?_, ?_⟩
  · unfold parseExport export_citations_json
    rw [toList_asString]
    simp only [List.append_assoc]
    rw [expectLit_append]
    simp only [Option.some_bind]
    rw [parseJsonString_dumpsStr]
    simp only [Option.some_bind]
    rw [expectLit_append]
    simp only [Option.some_bind]
    rw [parseRecords_dumpsRecords]
    simp only [Option.some_bind]
  · simp [exportRecords]
  · simp [exportRecords]

/-- C9, witness: a metadata mapping with only a string-valued `authors` entry
is well-formed; extraction succeeds with the author wrapped into a
one-element list, page defaulted to 1 and source defaulted to
`"Unknown Source"`. -/
theorem c9_witness :
    ∃ c, extract_citation_from_chunk {} "chunk body" [("authors", PyVal.str "Smith")] "chunk-1"
        = Except.ok c
      ∧ c.authors = ["Smith"] ∧ c.page_number = 1 ∧ c.pdf_name = "Unknown Source" := by
  obtain ⟨c, hok, h1, _h2, h3, h4⟩ :=
    c9_extraction_total {} "chunk body" [("authors", PyVal.str "Smith")] "chunk-1" (by decide)
  exact ⟨c, hok, h4 "Smith" (by decide), h1 (by decide), h3 (by decide)⟩

/-- C7, witness: a reachable registry with no citations generates the empty
references section. -/
theorem c7_witness :
    (reachableRegistry [] {} "doc-1" "sess-1" []).generate_references_section
        ⟨"October 12, 2026", "12 Oct 2026"⟩ = "" :=
  (c7_references_section_shape [] {} "doc-1" "sess-1" []
    ⟨"October 12, 2026", "12 Oct 2026"⟩).1.mpr rfl
